import Mathlib

set_option maxHeartbeats 1000000
set_option maxRecDepth 100000

/-!
Verification of the quadtree mesh core of the QuarterTreeMesh repository
(`Source/QuadtreeMesh/Private/MeshQuadTree.cpp`) against its natural-language
specification.

The embedding is a shallow one: coordinates and heights (C++ `float`/`double`)
are modelled as exact rationals, 32-bit signed quantities as `Int`, unsigned
indices and counts as `Nat`.  The node arena (`TArray<FNode>`) is a `List FNode`
addressed by position; reads use `getD` with the default-constructed node, and
writes use `List.set` (out-of-range accesses, undefined behaviour in C++, are
total here but unreachable under the preconditions of the theorems).
-/

/-- UE `FVector2D` with exact rational coordinates. -/
structure FVector2D where
  x : Rat
  y : Rat
deriving DecidableEq

/-- UE `FVector` with exact rational coordinates. -/
structure FVector where
  x : Rat
  y : Rat
  z : Rat
deriving DecidableEq

/-- UE `FBox2D` (2D axis-aligned box). -/
structure FBox2D where
  lo : FVector2D
  hi : FVector2D
deriving DecidableEq

/-- UE `FBox` (3D axis-aligned box with a validity flag; the two-point
constructor marks the box valid, `ForceInit` marks it invalid). -/
structure FBox where
  lo : FVector
  hi : FVector
  isValid : Bool
deriving DecidableEq

/-- `FBox2D::GetArea`. -/
def FBox2D.getArea (b : FBox2D) : Rat :=
  (b.hi.x - b.lo.x) * (b.hi.y - b.lo.y)

/-- `FBox2D::IsInsideOrOn` (closed containment). -/
def FBox2D.isInsideOrOn (b : FBox2D) (p : FVector2D) : Bool :=
  (p.x ≥ b.lo.x) && (p.x ≤ b.hi.x) && (p.y ≥ b.lo.y) && (p.y ≤ b.hi.y)

/-- `FBox2D::ComputeSquaredDistanceToPoint`. -/
def FBox2D.computeSquaredDistanceToPoint (b : FBox2D) (p : FVector2D) : Rat :=
  (if p.x < b.lo.x then (b.lo.x - p.x) * (b.lo.x - p.x)
   else if p.x > b.hi.x then (p.x - b.hi.x) * (p.x - b.hi.x) else 0) +
  (if p.y < b.lo.y then (b.lo.y - p.y) * (b.lo.y - p.y)
   else if p.y > b.hi.y then (p.y - b.hi.y) * (p.y - b.hi.y) else 0)

/-- `FBox::IntersectXY` (closed overlap test on the XY footprint). -/
def FBox.intersectXY (a b : FBox) : Bool :=
  !(a.lo.x > b.hi.x || b.lo.x > a.hi.x || a.lo.y > b.hi.y || b.lo.y > a.hi.y)

/-- `FBox::GetCenter`. -/
def FBox.getCenter (b : FBox) : FVector :=
  ⟨(b.lo.x + b.hi.x) / 2, (b.lo.y + b.hi.y) / 2, (b.lo.z + b.hi.z) / 2⟩

/-- `FBox::GetExtent` (half of the size). -/
def FBox.getExtent (b : FBox) : FVector :=
  ⟨(b.hi.x - b.lo.x) / 2, (b.hi.y - b.lo.y) / 2, (b.hi.z - b.lo.z) / 2⟩

/-- `FBox(ForceInit)`: a zero, invalid box. -/
def forceInitBox : FBox :=
  ⟨⟨0, 0, 0⟩, ⟨0, 0, 0⟩, false⟩

/-- `TNumericLimits<float>::Max()` (largest finite 32-bit float), exactly. -/
def floatMax : Rat := 340282346638528859811704183484516925440

/-- `TNumericLimits<float>::Lowest()`. -/
def floatLowest : Rat := -floatMax

/-- Sentinel for "no parent" used by the root node.  Modelled from the spec:
the constant (`INVALID_PARENT`) is declared in `MeshQuadTree.h`, which is not
part of the sources; only the root ever carries it. -/
def INVALID_PARENT : Nat := 0xFFFFFFF

/-- One quadtree node (`FMeshQuadTree::FNode`).  The record layout is modelled
from the spec's data model (the struct itself is declared in the missing
`MeshQuadTree.h`): a 3D bounding box, a parent index, four child indices with
`0` meaning "no child", the assigned render-data index, the transition
render-data index (a `uint16` in C++), and the three summary flags. -/
structure FNode where
  bounds : FBox
  parentIndex : Nat
  children0 : Nat
  children1 : Nat
  children2 : Nat
  children3 : Nat
  quadMeshIndex : Nat
  transitionQuadMeshIndex : Nat
  hasMaterial : Bool
  isSubtreeSameQuadMesh : Bool
  hasCompleteSubtree : Bool
deriving DecidableEq

/-- Modelled from the spec: the default-constructed `FNode` (constructor in the
missing `MeshQuadTree.h`): no children, no parent, the null render-data entry
at index `0`, all summary flags clear, zero bounds. -/
def FNode.defaultNode : FNode :=
  { bounds := forceInitBox
    parentIndex := INVALID_PARENT
    children0 := 0, children1 := 0, children2 := 0, children3 := 0
    quadMeshIndex := 0
    transitionQuadMeshIndex := 0
    hasMaterial := false
    isSubtreeSameQuadMesh := false
    hasCompleteSubtree := false }

/-- Child slot accessor (`Children[i]`). -/
def FNode.child (n : FNode) : Fin 4 → Nat
  | 0 => n.children0
  | 1 => n.children1
  | 2 => n.children2
  | 3 => n.children3

/-- Child slot update (`Children[i] = v`). -/
def FNode.setChild (n : FNode) : Fin 4 → Nat → FNode
  | 0, v => { n with children0 := v }
  | 1, v => { n with children1 := v }
  | 2, v => { n with children2 := v }
  | 3, v => { n with children3 := v }

/-- The children in array order, for `for (int32 ChildIndex : Children)`. -/
def FNode.childList (n : FNode) : List Nat :=
  [n.children0, n.children1, n.children2, n.children3]

/-- One render-data record (`FQuadMeshRenderData`).  The material is an opaque
handle (`none` = null `UMaterialInterface*`); two equal handles have the same
render proxy.  `materialIndex` is filled in by `BuildMaterialIndices`. -/
structure FQuadMeshRenderData where
  material : Option Nat
  surfaceBaseHeight : Rat
  materialIndex : Int
deriving DecidableEq

/-- Modelled from the spec: the default `FQuadMeshRenderData` (slot 0 sentinel
"null" entry): no material, zero base height, `INDEX_NONE` material index. -/
def FQuadMeshRenderData.defaultRD : FQuadMeshRenderData :=
  { material := none, surfaceBaseHeight := 0, materialIndex := -1 }

/-- The node store (`FMeshQuadTree::FNodeData`): the flat node arena plus the
render-data table.  `capacity` records the arena slack pre-sized at `InitTree`
(`TArray` capacity after `Empty(n)`); `overflowed` records whether the
`check(Nodes.Num() < Nodes.Max())` assertion in `AddNodes` ever failed. -/
structure FNodeData where
  nodes : List FNode
  capacity : Nat
  overflowed : Bool
  quadMeshRenderData : List FQuadMeshRenderData
deriving DecidableEq

/-- Arena read `Nodes[i]`. -/
def FNodeData.node (nd : FNodeData) (i : Nat) : FNode :=
  nd.nodes.getD i FNode.defaultNode

/-- Arena write `Nodes[i] = n`. -/
def FNodeData.setNode (nd : FNodeData) (i : Nat) (n : FNode) : FNodeData :=
  { nd with nodes := nd.nodes.set i n }

/-- Render-data read `QuadMeshRenderData[i]`. -/
def FNodeData.rd (nd : FNodeData) (i : Nat) : FQuadMeshRenderData :=
  nd.quadMeshRenderData.getD i FQuadMeshRenderData.defaultRD

/-- The tree object (`FMeshQuadTree`). -/
structure FMeshQuadTree where
  nodeData : FNodeData
  tileRegion : FBox2D
  leafSize : Rat
  extentInTilesX : Int
  extentInTilesY : Int
  treeDepth : Nat
  maxLeafCount : Int
  isReadOnly : Bool
  quadMeshMaterials : List Nat
deriving DecidableEq

/-- `FMath::RoundUpToPowerOfTwo` on unsigned integers:
`1 << CeilLogTwo(n)`. -/
def roundUpToPowerOfTwo (n : Nat) : Nat := 2 ^ Nat.clog 2 n

/-- `FMeshQuadTree::InitTree`.  The C++ computes `TreeDepth` as
`(int32)FMath::Log2((float)RootDim)` and the arena capacity as
`(int32)(FMath::Square(RootDim) * 4 / 3.0f)`; both are exact on the powers of
two produced here, and are modelled by `Nat.log 2` and truncating division. -/
def FMeshQuadTree.initTree (inBounds : FBox2D) (inTileSize : Rat)
    (extX extY : Int) : FMeshQuadTree :=
  let maxLeafCount : Int := extX * extY * 4
  let maxDim : Nat := (max (extX * 2) (extY * 2)).toNat
  let rootDim : Nat := roundUpToPowerOfTwo maxDim
  let capacity : Nat := 4 * rootDim ^ 2 / 3
  let rootWorldSize : Rat := (rootDim : Rat) * inTileSize
  let treeDepth : Nat := Nat.log 2 rootDim
  let rootNode : FNode :=
    { FNode.defaultNode with
        bounds :=
          { lo := ⟨inBounds.lo.x, inBounds.lo.y, floatMax⟩
            hi := ⟨inBounds.lo.x + rootWorldSize, inBounds.lo.y + rootWorldSize,
                   floatLowest⟩
            isValid := true } }
  { nodeData :=
      { nodes := [rootNode]
        capacity := capacity
        overflowed := false
        quadMeshRenderData := [FQuadMeshRenderData.defaultRD] }
    tileRegion := inBounds
    leafSize := inTileSize
    extentInTilesX := extX
    extentInTilesY := extY
    treeDepth := treeDepth
    maxLeafCount := maxLeafCount
    isReadOnly := false
    quadMeshMaterials := [] }

/-- `FMeshQuadTree::GetNodeCount`. -/
def FMeshQuadTree.getNodeCount (t : FMeshQuadTree) : Nat :=
  t.nodeData.nodes.length

/-- Modelled from the spec: `FMeshQuadTree::AddQuadtreeMeshRenderData`
(declared in the missing `MeshQuadTree.h`; the spec's render-data table is
append-only during build, each insertion "producing a render-data index used
for subsequent region insertion").  Appends the record and returns its index. -/
def FMeshQuadTree.addQuadMeshRenderData (t : FMeshQuadTree)
    (rd : FQuadMeshRenderData) : FMeshQuadTree × Nat :=
  (({ t with nodeData := { t.nodeData with
        quadMeshRenderData := t.nodeData.quadMeshRenderData ++ [rd] } }),
   t.nodeData.quadMeshRenderData.length)

/-- `FMeshQuadTree::FNode::CanRender`. -/
def FNode.canRender (n : FNode) (inDensityLevel inForceCollapseDensityLevel : Int)
    (rd : FQuadMeshRenderData) : Bool :=
  rd.material.isSome && n.isSubtreeSameQuadMesh &&
    ((inDensityLevel > inForceCollapseDensityLevel) || n.hasCompleteSubtree)

/-- Modelled from the spec: `FNode::CanMerge` (declared in the missing
`MeshQuadTree.h`); per the spec the uniformity comparison is "limited to the
identity-defining attributes - primarily the render-data index and
material-bearing status". -/
def FNode.canMerge (n other : FNode) : Bool :=
  n.quadMeshIndex == other.quadMeshIndex && n.hasMaterial == other.hasMaterial

/-- The quadrant offsets `HalfOffsets[] = {{0,0},{1,0},{0,1},{1,1}}`. -/
def quadrantOffset : Fin 4 → Rat × Rat
  | 0 => (0, 0)
  | 1 => (1, 0)
  | 2 => (0, 1)
  | 3 => (1, 1)

/-- The body of the per-quadrant loop of `FMeshQuadTree::FNode::AddNodes`
(lines 548-600): descends into or creates the quadrant child, then folds the
child's summary flags into this node's.  `recurse` is `AddNodes` at the next
lower LOD level; the state carries the arena and `PrevChildNode`. -/
def FNode.addNodesStep (recurse : FNodeData → Nat → Nat → FNodeData)
    (meshBounds quadBounds : FBox) (self inParentIndex : Nat) (halfX halfY : Rat)
    (st : FNodeData × FNode) (i : Fin 4) : FNodeData × FNode :=
  let nd := st.1
  let prev0 := st.2
  let ci := (nd.node self).child i
  let nd2 :=
    if ci > 0 then
      if (nd.node ci).bounds.intersectXY quadBounds then recurse nd ci ci else nd
    else
      let off := quadrantOffset i
      let cmin : FVector := ⟨(nd.node self).bounds.lo.x + halfX * off.1,
                             (nd.node self).bounds.lo.y + halfY * off.2,
                             quadBounds.lo.z⟩
      let cmax : FVector := ⟨cmin.x + halfX, cmin.y + halfY, quadBounds.hi.z⟩
      let cB : FBox := ⟨cmin, cmax, true⟩
      if cB.intersectXY quadBounds && cB.intersectXY meshBounds then
        let newIdx := nd.nodes.length
        let ndE : FNodeData :=
          { nd with nodes := nd.nodes ++ [FNode.defaultNode]
                    overflowed := nd.overflowed || !(nd.nodes.length < nd.capacity) }
        let ndE2 := ndE.setNode self ((ndE.node self).setChild i newIdx)
        let ndE3 := ndE2.setNode newIdx
          { FNode.defaultNode with bounds := cB, parentIndex := inParentIndex }
        recurse ndE3 newIdx newIdx
      else nd
  let ci2 := (nd2.node self).child i
  if ci2 > 0 then
    let childNode := nd2.node ci2
    let prev1 := if prev0.parentIndex == INVALID_PARENT then childNode else prev0
    let selfN := nd2.node self
    let selfN1 :=
      if childNode.isSubtreeSameQuadMesh == false || !(childNode.canMerge prev1)
      then { selfN with isSubtreeSameQuadMesh := false } else selfN
    let selfN2 :=
      if childNode.hasCompleteSubtree == false
      then { selfN1 with hasCompleteSubtree := false } else selfN1
    (nd2.setNode self selfN2, childNode)
  else
    (nd2.setNode self { (nd2.node self) with hasCompleteSubtree := false }, prev0)

/-- `FMeshQuadTree::FNode::AddNodes`.  The C++ method runs on a reference into
the arena; here `self` is the node's arena index.  `inParentIndex` mirrors the
`InParentIndex` argument (always the node's own index; `0` on the root call).
Note: the created child's parent is set to `InParentIndex` and its own index is
stored in `Children[i]` before recursing, exactly as in the source. -/
def FNode.addNodes (meshBounds quadBounds : FBox) (quadIdx : Nat) :
    Nat → FNodeData → Nat → Nat → FNodeData
  | lvl, nd0, self, inParentIndex =>
    let n0 := nd0.node self
    let n1 : FNode :=
      { n0 with
          bounds :=
            { n0.bounds with
                hi := { n0.bounds.hi with z := max n0.bounds.hi.z quadBounds.hi.z }
                lo := { n0.bounds.lo with z := min n0.bounds.lo.z quadBounds.lo.z } }
          transitionQuadMeshIndex := quadIdx % 65536
          quadMeshIndex := quadIdx
          hasMaterial := (nd0.rd quadIdx).material.isSome
          isSubtreeSameQuadMesh := true
          hasCompleteSubtree := true }
    let nd1 := nd0.setNode self n1
    match lvl with
    | 0 => nd1
    | lvl' + 1 =>
      let halfX := (n1.bounds.hi.x - n1.bounds.lo.x) / 2
      let halfY := (n1.bounds.hi.y - n1.bounds.lo.y) / 2
      (([0, 1, 2, 3] : List (Fin 4)).foldl
        (FNode.addNodesStep
          (fun nd c p => FNode.addNodes meshBounds quadBounds quadIdx lvl' nd c p)
          meshBounds quadBounds self inParentIndex halfX halfY)
        (nd1, nd1.node 0)).1

/-- `FMeshQuadTree::AddQuadMeshTilesInsideBounds` (the `check(!bIsReadOnly)`
precondition is the caller's contract and is not modelled). -/
def FMeshQuadTree.addQuadMeshTilesInsideBounds (t : FMeshQuadTree)
    (inBounds : FBox) (quadIdx : Nat) : FMeshQuadTree :=
  let meshBounds : FBox :=
    ⟨⟨t.tileRegion.lo.x, t.tileRegion.lo.y, 0⟩,
     ⟨t.tileRegion.hi.x, t.tileRegion.hi.y, 0⟩, true⟩
  { t with nodeData :=
      FNode.addNodes meshBounds inBounds quadIdx t.treeDepth t.nodeData 0 0 }

/-- `FMeshQuadTree::AddQuadMesh` (the polygon argument is unused in the
source). -/
def FMeshQuadTree.addQuadMesh (t : FMeshQuadTree) (_inPoly : List FVector2D)
    (inOceanBounds : FBox) (quadIdx : Nat) : FMeshQuadTree :=
  let shrink : Rat := t.leafSize / 4
  let tileBounds : FBox :=
    ⟨⟨inOceanBounds.lo.x + shrink, inOceanBounds.lo.y + shrink, inOceanBounds.lo.z⟩,
     ⟨inOceanBounds.hi.x - shrink, inOceanBounds.hi.y - shrink, inOceanBounds.hi.z⟩,
     true⟩
  t.addQuadMeshTilesInsideBounds tileBounds quadIdx

/-- The `SwapRemove` lambda of `FMeshQuadTree::Unlock`: swap the node at
`nodeIndex` with the live node at `endIndex`, then patch the moved node's
children's parent pointers and its parent's matching child slot.  The C++
binds `MovedNodeParent` (hence the parent's position) once, before the loop;
each array access re-reads the current state, as references do. -/
def pruneSwapRemove (nodes : List FNode) (nodeIndex endIndex : Nat) :
    List FNode :=
  if nodeIndex ≠ endIndex then
    let a := nodes.getD nodeIndex FNode.defaultNode
    let b := nodes.getD endIndex FNode.defaultNode
    let ns0 := (nodes.set nodeIndex b).set endIndex a
    let p0 := (ns0.getD nodeIndex FNode.defaultNode).parentIndex
    (List.finRange 4).foldl
      (fun ns i =>
        let moved := ns.getD nodeIndex FNode.defaultNode
        let ns1 :=
          if moved.child i > 0 then
            ns.set (moved.child i)
              { (ns.getD (moved.child i) FNode.defaultNode) with
                  parentIndex := nodeIndex }
          else ns
        let pn := ns1.getD p0 FNode.defaultNode
        if pn.child i == endIndex then ns1.set p0 (pn.setChild i nodeIndex)
        else ns1)
      ns0
  else nodes

/-- The pruning loop of `FMeshQuadTree::Unlock` (lines 91-122), iterating
`NodeIndex` from high to low down to 1 while tracking `EndIndex`.  The
recursion argument is the current `NodeIndex`.  Source line 107 reads
`IsSubtreeSameWaterBody`; the flags live in the missing `MeshQuadTree.h` and
the spec's data model has a single identity-uniformity flag, so it denotes
`isSubtreeSameQuadMesh` here. -/
def pruneLoop : Nat → List FNode → Nat → List FNode × Nat
  | 0, nodes, endIndex => (nodes, endIndex)
  | nodeIndex + 1, nodes, endIndex =>
    let k := nodeIndex + 1
    let parentIdx := (nodes.getD k FNode.defaultNode).parentIndex
    let parentNode := nodes.getD parentIdx FNode.defaultNode
    if parentNode.hasCompleteSubtree && parentNode.isSubtreeSameQuadMesh then
      let nodes1 := nodes.set parentIdx
        { parentNode with children0 := 0, children1 := 0, children2 := 0,
                          children3 := 0 }
      pruneLoop nodeIndex (pruneSwapRemove nodes1 k endIndex) (endIndex - 1)
    else if !(nodes.getD k FNode.defaultNode).hasMaterial &&
            (nodes.getD k FNode.defaultNode).hasCompleteSubtree &&
            (nodes.getD k FNode.defaultNode).isSubtreeSameQuadMesh then
      let nodes1 := (List.finRange 4).foldl
        (fun ns i =>
          let pn := ns.getD parentIdx FNode.defaultNode
          if pn.child i == k then ns.set parentIdx (pn.setChild i 0) else ns)
        nodes
      pruneLoop nodeIndex (pruneSwapRemove nodes1 k endIndex) (endIndex - 1)
    else
      pruneLoop nodeIndex nodes endIndex

/-- `FMeshQuadTree::Unlock`. -/
def FMeshQuadTree.unlock (t : FMeshQuadTree) (bPruneRedundantNodes : Bool) :
    FMeshQuadTree :=
  if bPruneRedundantNodes then
    let n := t.nodeData.nodes.length
    let res := pruneLoop (n - 1) t.nodeData.nodes (n - 1)
    { t with
        nodeData := { t.nodeData with nodes := res.1.take (res.2 + 1) }
        isReadOnly := true }
  else
    { t with isReadOnly := true }

/-- The point-in-child test of the query functions (lines 476-477, 505-506):
inside or on the Min edges, strictly below the Max edges. -/
def FBox.containsXYMinEdges (b : FBox) (p : FVector2D) : Bool :=
  (p.x ≥ b.lo.x) && (p.x < b.hi.x) && (p.y ≥ b.lo.y) && (p.y < b.hi.y)

/-- The child scan of `FNode::QueryBaseHeightAtLocation`: return the recursive
query on the first live child whose XY box contains the point, otherwise the
fallback result. -/
def FNode.queryScan (recurse : FNode → Bool × Rat) (nd : FNodeData)
    (p : FVector2D) (fallback : Bool × Rat) : List Nat → Bool × Rat
  | [] => fallback
  | ci :: rest =>
    if ci > 0 && (nd.node ci).bounds.containsXYMinEdges p then
      recurse (nd.node ci)
    else FNode.queryScan recurse nd p fallback rest

/-- `FMeshQuadTree::FNode::QueryBaseHeightAtLocation`.  The C++ recursion
descends along child pointers; `fuel` bounds that descent (callers pass the
arena size, which suffices because child indices strictly exceed their
parent's).  On exhausted fuel the not-found fallback is returned. -/
def FNode.queryBaseHeightAtLocation (nd : FNodeData) (p : FVector2D) :
    Nat → FNode → Bool × Rat
  | fuel, n =>
    if n.hasCompleteSubtree && n.isSubtreeSameQuadMesh then
      (true, (nd.rd n.quadMeshIndex).surfaceBaseHeight)
    else
      match fuel with
      | 0 => (false, (nd.rd n.quadMeshIndex).surfaceBaseHeight)
      | fuel' + 1 =>
        FNode.queryScan (fun c => FNode.queryBaseHeightAtLocation nd p fuel' c)
          nd p (false, (nd.rd n.quadMeshIndex).surfaceBaseHeight) n.childList

/-- The child scan of `FNode::QueryBoundsAtLocation`, carrying the running
`ChildCount`. -/
def FNode.queryBoundsScan (recurse : FNode → Bool × FBox) (nd : FNodeData)
    (p : FVector2D) (ownBounds : FBox) : List Nat → Nat → Bool × FBox
  | [], childCount => (childCount == 0, ownBounds)
  | ci :: rest, childCount =>
    if ci > 0 then
      if (nd.node ci).bounds.containsXYMinEdges p then recurse (nd.node ci)
      else FNode.queryBoundsScan recurse nd p ownBounds rest (childCount + 1)
    else FNode.queryBoundsScan recurse nd p ownBounds rest childCount

/-- `FMeshQuadTree::FNode::QueryBoundsAtLocation` (same fuel discipline as the
height query). -/
def FNode.queryBoundsAtLocation (nd : FNodeData) (p : FVector2D) :
    Nat → FNode → Bool × FBox
  | 0, n => (false, n.bounds)
  | fuel + 1, n =>
    FNode.queryBoundsScan (fun c => FNode.queryBoundsAtLocation nd p fuel c)
      nd p n.bounds n.childList 0

/-- `FMeshQuadTree::QueryTileBaseHeightAtLocation`. -/
def FMeshQuadTree.queryTileBaseHeightAtLocation (t : FMeshQuadTree)
    (p : FVector2D) : Bool × Rat :=
  if 0 < t.getNodeCount then
    FNode.queryBaseHeightAtLocation t.nodeData p t.nodeData.nodes.length
      (t.nodeData.node 0)
  else
    (false, 0)

/-- `FMeshQuadTree::QueryTileBoundsAtLocation`. -/
def FMeshQuadTree.queryTileBoundsAtLocation (t : FMeshQuadTree)
    (p : FVector2D) : Bool × FBox :=
  if 0 < t.getNodeCount then
    FNode.queryBoundsAtLocation t.nodeData p t.nodeData.nodes.length
      (t.nodeData.node 0)
  else
    (false, forceInitBox)

/-- `FMath::Lerp`. -/
def lerpR (a b t : Rat) : Rat := a + (b - a) * t

/-- `FMath::BiLerp`. -/
def biLerp (p00 p10 p01 p11 fx fy : Rat) : Rat :=
  lerpR (lerpR p00 p10 fx) (lerpR p01 p11 fx) fy

/-- `FMeshQuadTree::QueryInterpolatedTileBaseHeightAtLocation`.  `FMath::Floor`
and `FMath::Frac` are the exact floor and fractional part on rationals. -/
def FMeshQuadTree.queryInterpolatedTileBaseHeightAtLocation (t : FMeshQuadTree)
    (p : FVector2D) : Bool × Rat :=
  let sampleGridX := t.tileRegion.lo.x - t.leafSize / 2
  let sampleGridY := t.tileRegion.lo.y - t.leafSize / 2
  let nx := (p.x - sampleGridX) / t.leafSize
  let ny := (p.y - sampleGridY) / t.leafSize
  let c00x := (⌊nx⌋ : Rat) * t.leafSize + sampleGridX
  let c00y := (⌊ny⌋ : Rat) * t.leafSize + sampleGridY
  let s0 := t.queryTileBaseHeightAtLocation ⟨c00x, c00y⟩
  let s1 := t.queryTileBaseHeightAtLocation ⟨c00x + t.leafSize, c00y⟩
  let s2 := t.queryTileBaseHeightAtLocation ⟨c00x, c00y + t.leafSize⟩
  let s3 := t.queryTileBaseHeightAtLocation ⟨c00x + t.leafSize, c00y + t.leafSize⟩
  let numValid : Nat := (if s0.1 then 1 else 0) + (if s1.1 then 1 else 0) +
    (if s2.1 then 1 else 0) + (if s3.1 then 1 else 0)
  (numValid == 4,
   biLerp s0.2 s1.2 s2.2 s3.2 (nx - (⌊nx⌋ : Rat)) (ny - (⌊ny⌋ : Rat)))

/-- `FMeshQuadTree::BuildMaterialIndices`.  Material handles stand for their
render proxies (equal handles, equal proxies); the map is kept in insertion
order so the dense bucket indices are assigned by first encounter, and
`QuadMeshMaterials[bucket]` is the proxy with that bucket index. -/
def FMeshQuadTree.buildMaterialIndices (t : FMeshQuadTree) : FMeshQuadTree :=
  let step := fun (st : List FQuadMeshRenderData × Nat × List (Nat × Int))
      (rd : FQuadMeshRenderData) =>
    let done := st.1
    let nextIdx := st.2.1
    let matToIdxMap := st.2.2
    match rd.material with
    | none => (done ++ [{ rd with materialIndex := -1 }], nextIdx, matToIdxMap)
    | some m =>
      match matToIdxMap.lookup m with
      | some i => (done ++ [{ rd with materialIndex := i }], nextIdx, matToIdxMap)
      | none =>
        (done ++ [{ rd with materialIndex := (nextIdx : Int) }], nextIdx + 1,
         matToIdxMap ++ [(m, (nextIdx : Int))])
  let res := t.nodeData.quadMeshRenderData.foldl step ([], 0, [])
  { t with
      nodeData := { t.nodeData with quadMeshRenderData := res.1 }
      quadMeshMaterials := res.2.2.map (fun e => e.1) }

/-- Modelled from the spec: `FMeshQuadTree::FTraversalDesc` (declared in the
missing `MeshQuadTree.h`).  `frustum` models
`FConvexVolume::IntersectBox(center, extent)` as an opaque predicate.
`lodDistancesSq` models the per-level LOD distance thresholds
(`GetLODDistance(level, LODScale)`, also in the missing header) stored
squared: the source compares `FMath::Sqrt(ComputeSquaredDistanceToPoint(...))`
against the (nonnegative) threshold, which is the same test as comparing the
squared distance against the squared threshold. -/
structure FTraversalDesc where
  frustum : FVector → FVector → Bool
  observerPosition : FVector
  lodDistancesSq : Nat → Rat
  forceCollapseDensityLevel : Int
  lowestLOD : Nat
  densityCount : Int
  bLODMorphingEnabled : Bool
  heightMorph : Rat
  preViewTranslation : FVector
  tessellatedQuadMeshBounds : FBox2D

/-- One emitted instance record (`FStagingInstanceData`).  `data0W` and
`data1X` hold the bit-cast unsigned payloads (`NodeQuadMeshIndex` and the
packed LOD/morph channel) as the raw integers they encode. -/
structure FStagingInstanceData where
  bucketIndex : Int
  data0X : Rat
  data0Y : Rat
  data0Z : Rat
  data0W : Nat
  data1X : Nat
  data1Y : Rat
  data1Z : Rat
  data1W : Rat
deriving DecidableEq

/-- Traversal output (`FTraversalOutput`): the per-bucket instance histogram
(as a total function on bucket indices), the staging buffer, and the instance
count. -/
structure FTraversalOutput where
  bucketInstanceCounts : Int → Nat
  stagingInstanceData : List FStagingInstanceData
  instanceCount : Nat

/-- The squared XY distance from the node's footprint to the observer
(lines 300-301: `Bounds2D.ComputeSquaredDistanceToPoint(ObserverPosition)`;
the source then takes `FMath::Sqrt`). -/
def FNode.closestSqDistToObserver (n : FNode) (desc : FTraversalDesc) : Rat :=
  (FBox2D.mk ⟨n.bounds.lo.x, n.bounds.lo.y⟩ ⟨n.bounds.hi.x, n.bounds.hi.y⟩).computeSquaredDistanceToPoint
    ⟨desc.observerPosition.x, desc.observerPosition.y⟩

/-- `FMeshQuadTree::FNode::AddNodeForRender`.  `MaterialIndex` and
`NodeQuadMeshIndex` are the hard-coded `constexpr` constants of the source
(lines 607-608).  The bit-packed channel `(LOD & 0xFF) | (bShouldMorph << 8) |
(bCanMorphTwice << 9)` is written as the equal sum of its disjoint fields. -/
def FNode.addNodeForRender (n : FNode) (rd : FQuadMeshRenderData)
    (inDensityLevel : Int) (inLODLevel : Nat) (desc : FTraversalDesc)
    (out : FTraversalOutput) : FTraversalOutput :=
  let materialIndex : Int := 0
  let nodeQuadMeshIndex : Nat := 2
  let baseHeightTWS := rd.surfaceBaseHeight + desc.preViewTranslation.z
  let densityIndex : Int := min inDensityLevel (desc.densityCount - 1)
  let bucketIndex : Int := materialIndex * desc.densityCount + densityIndex
  let c := n.bounds.getCenter
  let bIsLowestLOD := inLODLevel == desc.lowestLOD
  let bShouldMorph :=
    desc.bLODMorphingEnabled && !(densityIndex == desc.densityCount - 1)
  let bCanMorphTwice := densityIndex < desc.densityCount - 2
  let bitPacked : Nat := inLODLevel % 256 + (if bShouldMorph then 256 else 0) +
    (if bCanMorphTwice then 512 else 0)
  let staging : FStagingInstanceData :=
    { bucketIndex := bucketIndex
      data0X := c.x + desc.preViewTranslation.x
      data0Y := c.y + desc.preViewTranslation.y
      data0Z := baseHeightTWS
      data0W := nodeQuadMeshIndex
      data1X := bitPacked
      data1Y := if bIsLowestLOD then desc.heightMorph else 0
      data1Z := n.bounds.hi.x - n.bounds.lo.x
      data1W := n.bounds.hi.y - n.bounds.lo.y }
  { bucketInstanceCounts := fun b =>
      if b = bucketIndex then out.bucketInstanceCounts b + 1
      else out.bucketInstanceCounts b
    stagingInstanceData := out.stagingInstanceData ++ [staging]
    instanceCount := out.instanceCount + 1 }

/-- `FMeshQuadTree::FNode::SelectLODRefinement`.  The recursion follows child
pointers, so it is bounded by `fuel` (callers pass the arena size). -/
def FNode.selectLODRefinement (nd : FNodeData) :
    Nat → FNode → Int → Nat → FTraversalDesc → FTraversalOutput →
    FTraversalOutput
  | fuel, n, inDensityLevel, inLODLevel, desc, out =>
    let rd := nd.rd n.quadMeshIndex
    if desc.frustum n.bounds.getCenter n.bounds.getExtent then
      if n.canRender inDensityLevel desc.forceCollapseDensityLevel rd then
        n.addNodeForRender rd inDensityLevel inLODLevel desc out
      else
        match fuel with
        | 0 => out
        | fuel' + 1 =>
          n.childList.foldl
            (fun acc ci =>
              if ci > 0 then
                FNode.selectLODRefinement nd fuel' (nd.node ci)
                  (inDensityLevel + 1) inLODLevel desc acc
              else acc)
            out
    else out

/-- The temporary child synthesized for a pruned, uniform subtree during
`SelectLOD`/`SelectLODWithinBounds` (lines 362-377, 423-437): quadrant `i` of
the node's box by the halving rule, inheriting the node's render-data identity,
transition identity and (set-to-one) completeness and uniformity flags; the
remaining fields keep their default-constructed values. -/
def FNode.synthChild (n : FNode) (i : Fin 4) : FNode :=
  let ext := n.bounds.getExtent
  let off := quadrantOffset i
  let cminX := n.bounds.lo.x + ext.x * off.1
  let cminY := n.bounds.lo.y + ext.y * off.2
  let cminZ := n.bounds.lo.z
  { FNode.defaultNode with
      hasCompleteSubtree := true
      isSubtreeSameQuadMesh := true
      transitionQuadMeshIndex := n.transitionQuadMeshIndex
      quadMeshIndex := n.quadMeshIndex
      bounds := ⟨⟨cminX, cminY, cminZ⟩,
                 ⟨cminX + ext.x, cminY + ext.y, cminZ + ext.z * 2⟩, true⟩ }

/-- `FMeshQuadTree::FNode::SelectLOD`.  Structural recursion on the LOD level;
`rfuel` is the fuel handed to `SelectLODRefinement`. -/
def FNode.selectLOD (nd : FNodeData) (rfuel : Nat) :
    Nat → FNode → FTraversalDesc → FTraversalOutput → FTraversalOutput
  | inLODLevel, n, desc, out =>
    let rd := nd.rd n.quadMeshIndex
    if !(desc.frustum n.bounds.getCenter n.bounds.getExtent) then out
    else
      let sqDist := n.closestSqDistToObserver desc
      if sqDist > desc.lodDistancesSq inLODLevel then
        if n.canRender 0 desc.forceCollapseDensityLevel rd then
          n.addNodeForRender rd 1 (inLODLevel + 1) desc out
        else
          n.childList.foldl
            (fun acc ci =>
              if ci > 0 then
                FNode.selectLODRefinement nd rfuel (nd.node ci) 2
                  (inLODLevel + 1) desc acc
              else acc)
            out
      else
        match inLODLevel with
        | 0 =>
          if n.canRender 0 desc.forceCollapseDensityLevel rd then
            n.addNodeForRender rd 0 0 desc out
          else out
        | lvl' + 1 =>
          if sqDist > desc.lodDistancesSq lvl' ||
             (lvl' + 1 : Nat) == desc.lowestLOD then
            if n.canRender 0 desc.forceCollapseDensityLevel rd then
              n.addNodeForRender rd 0 (lvl' + 1) desc out
            else
              n.childList.foldl
                (fun acc ci =>
                  if ci > 0 then
                    FNode.selectLODRefinement nd rfuel (nd.node ci) 1
                      (lvl' + 1) desc acc
                  else acc)
                out
          else
            if n.hasCompleteSubtree && n.isSubtreeSameQuadMesh then
              (List.finRange 4).foldl
                (fun acc i =>
                  FNode.selectLOD nd rfuel lvl' (n.synthChild i) desc acc)
                out
            else
              n.childList.foldl
                (fun acc ci =>
                  if ci > 0 then
                    FNode.selectLOD nd rfuel lvl' (nd.node ci) desc acc
                  else acc)
                out

/-- `FMeshQuadTree::FNode::SelectLODWithinBounds` (the
`check(TessellatedQuadMeshBounds.bIsValid)` assertion is the caller's
contract). -/
def FNode.selectLODWithinBounds (nd : FNodeData) :
    Nat → FNode → FTraversalDesc → FTraversalOutput → FTraversalOutput
  | inLODLevel, n, desc, out =>
    let rd := nd.rd n.quadMeshIndex
    if !(desc.frustum n.bounds.getCenter n.bounds.getExtent) then out
    else
      match inLODLevel with
      | 0 =>
        if (desc.tessellatedQuadMeshBounds.isInsideOrOn
              ⟨n.bounds.lo.x, n.bounds.lo.y⟩ &&
            desc.tessellatedQuadMeshBounds.isInsideOrOn
              ⟨n.bounds.hi.x, n.bounds.hi.y⟩) &&
           n.canRender 0 desc.forceCollapseDensityLevel rd then
          n.addNodeForRender rd 0 0 desc out
        else out
      | lvl' + 1 =>
        if n.hasCompleteSubtree && n.isSubtreeSameQuadMesh then
          (List.finRange 4).foldl
            (fun acc i =>
              FNode.selectLODWithinBounds nd lvl' (n.synthChild i) desc acc)
            out
        else
          n.childList.foldl
            (fun acc ci =>
              if ci > 0 then
                FNode.selectLODWithinBounds nd lvl' (nd.node ci) desc acc
              else acc)
            out

/-- A build phase: `InitTree` followed by a sequence of
`AddQuadMeshTilesInsideBounds` insertions. -/
def FMeshQuadTree.applyTileInsertions (t : FMeshQuadTree)
    (ins : List (FBox × Nat)) : FMeshQuadTree :=
  ins.foldl (fun a e => a.addQuadMeshTilesInsideBounds e.1 e.2) t

/-- Follow a path of quadrant choices down the arena from node `i`
(`0` in a child slot means the quadrant is absent). -/
def FNodeData.followFrom (nd : FNodeData) (i : Nat) : List (Fin 4) → Option Nat
  | [] => some i
  | q :: rest =>
    if (nd.node i).child q = 0 then none
    else nd.followFrom ((nd.node i).child q) rest

/-- XY containment between 3D boxes: the footprint of `a` lies inside the
footprint of `b`. -/
def FBox.xyContainedIn (a b : FBox) : Prop :=
  b.lo.x ≤ a.lo.x ∧ b.lo.y ≤ a.lo.y ∧ a.hi.x ≤ b.hi.x ∧ a.hi.y ≤ b.hi.y

/-- Structural well-formedness of the node arena with respect to a level
assignment `lvlF`: the arena is nonempty, every child pointer goes strictly
forward to an in-range node one level down, and every non-root node is
reachable from the root.  This is the invariant the build phase maintains;
levels decrease along paths, which bounds path lengths by the root level. -/
structure ArenaShape (nd : FNodeData) (d : Nat) (lvlF : Nat → Nat) : Prop where
  len_pos : 0 < nd.nodes.length
  root_level : lvlF 0 = d
  child_gt : ∀ i, i < nd.nodes.length → ∀ q : Fin 4, (nd.node i).child q ≠ 0 →
    i < (nd.node i).child q ∧ (nd.node i).child q < nd.nodes.length
  child_level : ∀ i, i < nd.nodes.length → ∀ q : Fin 4, (nd.node i).child q ≠ 0 →
    lvlF ((nd.node i).child q) + 1 = lvlF i
  reach : ∀ j, 0 < j → j < nd.nodes.length →
    ∃ pth : List (Fin 4), nd.followFrom 0 pth = some j

/-- The arena order maintained by the build phase: the arena only grows, and a
nonzero child pointer of a pre-existing node keeps its value (`AddNodes` only
fills empty slots). -/
def ChildExt (nd nd' : FNodeData) : Prop :=
  nd.nodes.length ≤ nd'.nodes.length ∧
  ∀ i, i < nd.nodes.length → ∀ q : Fin 4, (nd.node i).child q ≠ 0 →
    (nd'.node i).child q = (nd.node i).child q

/-- What an `AddNodes` call at level `lvl` guarantees about arena structure:
on a shaped arena whose capacity holds a full depth-`d` quadtree, starting at
a node of level `lvl`, the call keeps the arena shaped (for a level assignment
agreeing on all pre-existing nodes), only grows it, preserves filled child
slots, and leaves the capacity and the overflow flag unchanged. -/
def AddNodesShapeSpec (meshB quadB : FBox) (qIdx : Nat) (d : Nat) (lvl : Nat) :
    Prop :=
  ∀ (nd : FNodeData) (self inParent : Nat) (lvlF : Nat → Nat),
    ArenaShape nd d lvlF →
    self < nd.nodes.length →
    lvlF self = lvl →
    (∑ k ∈ Finset.range (d + 1), 4 ^ k) ≤ nd.capacity →
    ∃ lvlF' : Nat → Nat,
      (∀ j, j < nd.nodes.length → lvlF' j = lvlF j) ∧
      ArenaShape (FNode.addNodes meshB quadB qIdx lvl nd self inParent) d lvlF' ∧
      ChildExt nd (FNode.addNodes meshB quadB qIdx lvl nd self inParent) ∧
      (FNode.addNodes meshB quadB qIdx lvl nd self inParent).capacity =
        nd.capacity ∧
      (FNode.addNodes meshB quadB qIdx lvl nd self inParent).overflowed =
        nd.overflowed

/-- A small build configuration shared by the concrete scenarios below:
`InitTree` on the square `[0,64]x[0,64]` with tile size `32` and a `1x1`
extent (tree depth 1, 2x2 leaf grid). -/
def tinyTree0 : FMeshQuadTree :=
  FMeshQuadTree.initTree ⟨⟨0, 0⟩, ⟨64, 64⟩⟩ 32 1 1

/-- A render-data record bearing a material. -/
def rdMat : FQuadMeshRenderData :=
  { material := some 5, surfaceBaseHeight := 10, materialIndex := -1 }

/-- `tinyTree0` with `rdMat` appended to the render-data table (index 1). -/
def tinyTreeRD : FMeshQuadTree :=
  (tinyTree0.addQuadMeshRenderData rdMat).1

/-- A traversal output with empty buffers. -/
def emptyOutput : FTraversalOutput :=
  { bucketInstanceCounts := fun _ => 0, stagingInstanceData := [], instanceCount := 0 }

/-- A traversal descriptor for the concrete LOD scenarios: pass-everything
frustum, observer at `(10,10)` (inside the root tile), huge LOD distances,
force-collapse threshold `-1`, lowest LOD `0`, two density buckets. -/
def cDesc : FTraversalDesc :=
  { frustum := fun _ _ => true
    observerPosition := ⟨10, 10, 0⟩
    lodDistancesSq := fun _ => 1000000
    forceCollapseDensityLevel := -1
    lowestLOD := 0
    densityCount := 2
    bLODMorphingEnabled := false
    heightMorph := 0
    preViewTranslation := ⟨0, 0, 0⟩
    tessellatedQuadMeshBounds := ⟨⟨0, 0⟩, ⟨64, 64⟩⟩ }

/-- A complete, identity-uniform node covering `[0,64]x[0,64]` assigned to
render-data index 2. -/
def cNode : FNode :=
  { bounds := ⟨⟨0, 0, 0⟩, ⟨64, 64, 0⟩, true⟩
    parentIndex := INVALID_PARENT
    children0 := 0, children1 := 0, children2 := 0, children3 := 0
    quadMeshIndex := 2
    transitionQuadMeshIndex := 2
    hasMaterial := true
    isSubtreeSameQuadMesh := true
    hasCompleteSubtree := true }

/-- A tree with two distinct materials in its render-data table, after
`BuildMaterialIndices`: table slot 1 gets material bucket 0, slot 2 gets
material bucket 1. -/
def twoMatTree : FMeshQuadTree :=
  (((tinyTree0.addQuadMeshRenderData rdMat).1.addQuadMeshRenderData
      { material := some 7, surfaceBaseHeight := 20, materialIndex := -1 }).1).buildMaterialIndices

/-- A tree whose arena was never populated (`Initialize` never ran). -/
def emptyTree : FMeshQuadTree :=
  { nodeData := { nodes := [], capacity := 0, overflowed := false,
                  quadMeshRenderData := [] }
    tileRegion := ⟨⟨0, 0⟩, ⟨0, 0⟩⟩
    leafSize := 1
    extentInTilesX := 1
    extentInTilesY := 1
    treeDepth := 0
    maxLeafCount := 0
    isReadOnly := false
    quadMeshMaterials := [] }

/-- Invariant of the per-quadrant loop of `AddNodes` on a node whose quadrant
boxes are all inside the inserted region and the mesh bounds ("covered"
insertion): after processing the quadrants marked in `done`, the arena `ndk`
extends `nd`, all records except `self` and fresh nodes are untouched, `self`
keeps its optimistic flags and geometry, processed slots hold fresh complete
uniform children of the same identity, every fresh node's parent already has
both summary flags set, and the running `PrevChildNode` is either the initial
root copy (recognisable by `INVALID_PARENT`) or a previous child of the same
identity. -/
structure CoveredInv (quadB : FBox) (qIdx : Nat) (nd : FNodeData) (self : Nat)
    (ndk : FNodeData) (prevk : FNode) (done : Fin 4 → Bool) : Prop where
  len_mono : nd.nodes.length ≤ ndk.nodes.length
  rd_eq : ndk.quadMeshRenderData = nd.quadMeshRenderData
  prefix_eq : ∀ j, j < nd.nodes.length → j ≠ self → ndk.node j = nd.node j
  self_parent : (ndk.node self).parentIndex = (nd.node self).parentIndex
  self_lox : (ndk.node self).bounds.lo.x = (nd.node self).bounds.lo.x
  self_loy : (ndk.node self).bounds.lo.y = (nd.node self).bounds.lo.y
  self_hix : (ndk.node self).bounds.hi.x = (nd.node self).bounds.hi.x
  self_hiy : (ndk.node self).bounds.hi.y = (nd.node self).bounds.hi.y
  self_complete : (ndk.node self).hasCompleteSubtree = true
  self_same : (ndk.node self).isSubtreeSameQuadMesh = true
  self_qidx : (ndk.node self).quadMeshIndex = qIdx
  self_hm : (ndk.node self).hasMaterial = (nd.rd qIdx).material.isSome
  slot_empty : ∀ q : Fin 4, done q = false → (ndk.node self).child q = 0
  slot_done : ∀ q : Fin 4, done q = true →
    0 < (ndk.node self).child q ∧
    nd.nodes.length ≤ (ndk.node self).child q ∧
    (ndk.node self).child q < ndk.nodes.length ∧
    (ndk.node ((ndk.node self).child q)).hasCompleteSubtree = true ∧
    (ndk.node ((ndk.node self).child q)).isSubtreeSameQuadMesh = true ∧
    (ndk.node ((ndk.node self).child q)).quadMeshIndex = qIdx ∧
    (ndk.node ((ndk.node self).child q)).hasMaterial = (nd.rd qIdx).material.isSome
  new_parent_flags : ∀ j, nd.nodes.length ≤ j → j < ndk.nodes.length →
    (ndk.node (ndk.node j).parentIndex).hasCompleteSubtree = true ∧
    (ndk.node (ndk.node j).parentIndex).isSubtreeSameQuadMesh = true
  prev_ok : prevk.parentIndex = INVALID_PARENT ∨
    (prevk.quadMeshIndex = qIdx ∧
     prevk.hasMaterial = (nd.rd qIdx).material.isSome)

/-- What a "covered" `AddNodes` call guarantees, as a statement about level
`lvl`: on a node with no children yet whose XY box lies inside both the
inserted region and the mesh bounds, `AddNodes` grows the arena, leaves every
other pre-existing record untouched, leaves this node's geometry and parent
alone while giving it the inserted identity and both summary flags, and every
node it appends has a parent carrying both summary flags. -/
def AddNodesCoveredSpec (meshB quadB : FBox) (qIdx : Nat) (lvl : Nat) : Prop :=
  ∀ (nd : FNodeData) (self : Nat),
    self < nd.nodes.length →
    (nd.node self).children0 = 0 → (nd.node self).children1 = 0 →
    (nd.node self).children2 = 0 → (nd.node self).children3 = 0 →
    (nd.node self).bounds.xyContainedIn quadB →
    (nd.node self).bounds.xyContainedIn meshB →
    (nd.node self).bounds.lo.x ≤ (nd.node self).bounds.hi.x →
    (nd.node self).bounds.lo.y ≤ (nd.node self).bounds.hi.y →
    (nd.node 0).parentIndex = INVALID_PARENT →
    nd.nodes.length ≤
      (FNode.addNodes meshB quadB qIdx lvl nd self self).nodes.length ∧
    (FNode.addNodes meshB quadB qIdx lvl nd self self).quadMeshRenderData =
      nd.quadMeshRenderData ∧
    (∀ j, j < nd.nodes.length → j ≠ self →
      (FNode.addNodes meshB quadB qIdx lvl nd self self).node j = nd.node j) ∧
    ((FNode.addNodes meshB quadB qIdx lvl nd self self).node self).hasCompleteSubtree
      = true ∧
    ((FNode.addNodes meshB quadB qIdx lvl nd self self).node self).isSubtreeSameQuadMesh
      = true ∧
    ((FNode.addNodes meshB quadB qIdx lvl nd self self).node self).quadMeshIndex
      = qIdx ∧
    ((FNode.addNodes meshB quadB qIdx lvl nd self self).node self).hasMaterial
      = (nd.rd qIdx).material.isSome ∧
    ((FNode.addNodes meshB quadB qIdx lvl nd self self).node self).parentIndex
      = (nd.node self).parentIndex ∧
    ((FNode.addNodes meshB quadB qIdx lvl nd self self).node self).bounds.lo.x
      = (nd.node self).bounds.lo.x ∧
    ((FNode.addNodes meshB quadB qIdx lvl nd self self).node self).bounds.lo.y
      = (nd.node self).bounds.lo.y ∧
    ((FNode.addNodes meshB quadB qIdx lvl nd self self).node self).bounds.hi.x
      = (nd.node self).bounds.hi.x ∧
    ((FNode.addNodes meshB quadB qIdx lvl nd self self).node self).bounds.hi.y
      = (nd.node self).bounds.hi.y ∧
    (∀ j, nd.nodes.length ≤ j →
      j < (FNode.addNodes meshB quadB qIdx lvl nd self self).nodes.length →
      ((FNode.addNodes meshB quadB qIdx lvl nd self self).node
          ((FNode.addNodes meshB quadB qIdx lvl nd self self).node j).parentIndex).hasCompleteSubtree
        = true ∧
      ((FNode.addNodes meshB quadB qIdx lvl nd self self).node
          ((FNode.addNodes meshB quadB qIdx lvl nd self self).node j).parentIndex).isSubtreeSameQuadMesh
        = true)

/-! ## Theorems -/

/-- C3: a node "can render as one instance" if and only if its assigned
render-data record has a non-null material, the node's subtree is
identity-uniform, and either the current density level exceeds the
force-collapse threshold or the node's subtree is complete
(`FMeshQuadTree::FNode::CanRender`, lines 250-254). -/
theorem canRender_characterization (n : FNode) (dens force : Int)
    (rd : FQuadMeshRenderData) :
    n.canRender dens force rd = true ↔
      (rd.material ≠ none ∧ n.isSubtreeSameQuadMesh = true ∧
       (force < dens ∨ n.hasCompleteSubtree = true)) := by
  simp only [FNode.canRender, Bool.and_eq_true, Bool.or_eq_true,
    decide_eq_true_eq, Option.isSome_iff_ne_none]
  tauto

/-- C10: on a tree whose node arena is empty, `QueryTileBaseHeightAtLocation`
reports not-found with height `0` and `QueryTileBoundsAtLocation` reports
not-found with the force-initialized (invalid) box, without touching the
arena (lines 224-248). -/
theorem queryOnEmptyTree (t : FMeshQuadTree) (p : FVector2D)
    (h : t.nodeData.nodes = []) :
    t.queryTileBaseHeightAtLocation p = (false, 0) ∧
    t.queryTileBoundsAtLocation p = (false, forceInitBox) ∧
    forceInitBox.isValid = false := by
  refine ⟨?_, ?_, rfl⟩
  · simp [FMeshQuadTree.queryTileBaseHeightAtLocation, FMeshQuadTree.getNodeCount, h]
  · simp [FMeshQuadTree.queryTileBoundsAtLocation, FMeshQuadTree.getNodeCount, h]

/-- Witness for C10 at a concrete uninitialized tree and point. -/
theorem queryOnEmptyTree_witness :
    emptyTree.nodeData.nodes = [] ∧
    (emptyTree.queryTileBaseHeightAtLocation ⟨3, 4⟩ = (false, 0) ∧
     emptyTree.queryTileBoundsAtLocation ⟨3, 4⟩ = (false, forceInitBox) ∧
     forceInitBox.isValid = false) :=
  ⟨rfl, queryOnEmptyTree emptyTree ⟨3, 4⟩ rfl⟩

/-- C2: after `InitTree` on valid input, the tree depth is the base-2
logarithm of the smallest power of two at least `2 * max(extentX, extentY)`
(stated by its universal property), and the root node's XY box is anchored at
`bounds.Min` with side length that power of two times the tile size
(lines 13-55). -/
theorem initTree_depth_and_root_bounds (b : FBox2D) (ts : Rat) (ex ey : Int)
    (_harea : 0 < b.getArea) (_hts : 0 < ts) (_hex : 0 < ex) (_hey : 0 < ey) :
    ((2 * max ex ey).toNat ≤ 2 ^ (FMeshQuadTree.initTree b ts ex ey).treeDepth ∧
     ∀ k : Nat, (2 * max ex ey).toNat ≤ 2 ^ k →
       (FMeshQuadTree.initTree b ts ex ey).treeDepth ≤ k) ∧
    ((FMeshQuadTree.initTree b ts ex ey).nodeData.node 0).bounds.lo.x = b.lo.x ∧
    ((FMeshQuadTree.initTree b ts ex ey).nodeData.node 0).bounds.lo.y = b.lo.y ∧
    ((FMeshQuadTree.initTree b ts ex ey).nodeData.node 0).bounds.hi.x =
      b.lo.x + ((2 ^ (FMeshQuadTree.initTree b ts ex ey).treeDepth : Nat) : Rat) * ts ∧
    ((FMeshQuadTree.initTree b ts ex ey).nodeData.node 0).bounds.hi.y =
      b.lo.y + ((2 ^ (FMeshQuadTree.initTree b ts ex ey).treeDepth : Nat) : Rat) * ts := by
  have hmax : (max (ex * 2) (ey * 2)).toNat = (2 * max ex ey).toNat := by
    rcases le_total ex ey with h | h
    · rw [max_eq_right (by linarith : ex * 2 ≤ ey * 2), max_eq_right h,
        mul_comm (2 : Int) ey]
    · rw [max_eq_left (by linarith : ey * 2 ≤ ex * 2), max_eq_left h,
        mul_comm (2 : Int) ex]
  have hdepth : (FMeshQuadTree.initTree b ts ex ey).treeDepth =
      Nat.clog 2 ((2 * max ex ey).toNat) := by
    show Nat.log 2 (roundUpToPowerOfTwo ((max (ex * 2) (ey * 2)).toNat)) = _
    rw [hmax, roundUpToPowerOfTwo, Nat.log_pow (by norm_num)]
  refine ⟨⟨?_, ?_⟩, rfl, rfl, ?_, ?_⟩
  · rw [hdepth]; exact Nat.le_pow_clog (by norm_num) _
  · intro k hk
    rw [hdepth]
    exact (Nat.le_pow_iff_clog_le (by norm_num)).mp hk
  · show b.lo.x + ((roundUpToPowerOfTwo ((max (ex * 2) (ey * 2)).toNat) : Nat) : Rat) * ts = _
    rw [hdepth, hmax, roundUpToPowerOfTwo]
  · show b.lo.y + ((roundUpToPowerOfTwo ((max (ex * 2) (ey * 2)).toNat) : Nat) : Rat) * ts = _
    rw [hdepth, hmax, roundUpToPowerOfTwo]

/-- Witness for C2: the spec's concrete scenario
`Initialize(bounds=[0,0]-[256,256], tileSize=32, extent=(4,4))` has tree
depth 3 and a root box `[0,256]x[0,256]`. -/
theorem initTree_depth_and_root_bounds_witness :
    (0 < (FBox2D.mk ⟨0, 0⟩ ⟨256, 256⟩).getArea ∧ (0 : Rat) < 32 ∧
     (0 : Int) < 4 ∧ (0 : Int) < 4) ∧
    (FMeshQuadTree.initTree ⟨⟨0, 0⟩, ⟨256, 256⟩⟩ 32 4 4).treeDepth = 3 ∧
    (((2 * max (4 : Int) 4).toNat ≤
        2 ^ (FMeshQuadTree.initTree ⟨⟨0, 0⟩, ⟨256, 256⟩⟩ 32 4 4).treeDepth ∧
      ∀ k : Nat, (2 * max (4 : Int) 4).toNat ≤ 2 ^ k →
        (FMeshQuadTree.initTree ⟨⟨0, 0⟩, ⟨256, 256⟩⟩ 32 4 4).treeDepth ≤ k) ∧
     ((FMeshQuadTree.initTree ⟨⟨0, 0⟩, ⟨256, 256⟩⟩ 32 4 4).nodeData.node 0).bounds.lo.x = 0 ∧
     ((FMeshQuadTree.initTree ⟨⟨0, 0⟩, ⟨256, 256⟩⟩ 32 4 4).nodeData.node 0).bounds.lo.y = 0 ∧
     ((FMeshQuadTree.initTree ⟨⟨0, 0⟩, ⟨256, 256⟩⟩ 32 4 4).nodeData.node 0).bounds.hi.x =
       0 + ((2 ^ (FMeshQuadTree.initTree ⟨⟨0, 0⟩, ⟨256, 256⟩⟩ 32 4 4).treeDepth : Nat) : Rat) * 32 ∧
     ((FMeshQuadTree.initTree ⟨⟨0, 0⟩, ⟨256, 256⟩⟩ 32 4 4).nodeData.node 0).bounds.hi.y =
       0 + ((2 ^ (FMeshQuadTree.initTree ⟨⟨0, 0⟩, ⟨256, 256⟩⟩ 32 4 4).treeDepth : Nat) : Rat) * 32) :=
  ⟨⟨by with_unfolding_all decide, by with_unfolding_all decide, by decide, by decide⟩,
   by with_unfolding_all decide,
   initTree_depth_and_root_bounds ⟨⟨0, 0⟩, ⟨256, 256⟩⟩ 32 4 4
     (by with_unfolding_all decide) (by with_unfolding_all decide) (by decide) (by decide)⟩

/-- The child scan of the height query returns the recursive result on the
first live child whose XY box contains the point (in slot order), and the
fallback when no child matches. -/
theorem queryScan_eq_find (recurse : FNode → Bool × Rat) (nd : FNodeData)
    (p : FVector2D) (fb : Bool × Rat) (l : List Nat) :
    FNode.queryScan recurse nd p fb l =
      match l.find? (fun ci => ci > 0 && (nd.node ci).bounds.containsXYMinEdges p) with
      | some ci => recurse (nd.node ci)
      | none => fb := by
  induction l with
  | nil => rfl
  | cons a rest ih =>
    cases h : (decide (a > 0) && (nd.node a).bounds.containsXYMinEdges p) with
    | true => simp [FNode.queryScan, List.find?, h]
    | false => simp [FNode.queryScan, List.find?, h, ih]

/-- C7: one step of `FNode::QueryBaseHeightAtLocation` — if the node's subtree
is complete and identity-uniform it immediately returns its render-data base
height with found = true; otherwise it recurses into the first live child
whose XY box contains the point under half-open (min-inclusive, max-exclusive)
containment; and if no child contains the point it reports found = false with
this node's own base height (lines 455-489). -/
theorem queryBaseHeight_characterization (nd : FNodeData) (p : FVector2D)
    (fuel : Nat) (n : FNode) :
    FNode.queryBaseHeightAtLocation nd p (fuel + 1) n =
      (if n.hasCompleteSubtree = true ∧ n.isSubtreeSameQuadMesh = true then
        (true, (nd.rd n.quadMeshIndex).surfaceBaseHeight)
      else
        match n.childList.find?
            (fun ci => ci > 0 && (nd.node ci).bounds.containsXYMinEdges p) with
        | some ci => FNode.queryBaseHeightAtLocation nd p fuel (nd.node ci)
        | none => (false, (nd.rd n.quadMeshIndex).surfaceBaseHeight)) := by
  by_cases h : n.hasCompleteSubtree = true ∧ n.isSubtreeSameQuadMesh = true
  · rw [if_pos h]
    rw [FNode.queryBaseHeightAtLocation]
    simp only [h.1, h.2, Bool.and_true, if_true]
  · rw [if_neg h]
    rw [FNode.queryBaseHeightAtLocation]
    have hb : (n.hasCompleteSubtree && n.isSubtreeSameQuadMesh) = false := by
      cases hc : n.hasCompleteSubtree <;> cases hu : n.isSubtreeSameQuadMesh <;>
        simp_all
    rw [hb]
    simp only [Bool.false_eq_true, if_false]
    exact queryScan_eq_find _ nd p _ n.childList

/-- A sum of four 0/1 indicators equals 4 exactly when all four hold. -/
theorem countFour_eq_four_iff (a b c d : Bool) :
    ((((if a = true then (1 : Nat) else 0) + (if b = true then 1 else 0)) +
      (if c = true then 1 else 0) + (if d = true then 1 else 0)) == 4) = true ↔
    (a = true ∧ b = true ∧ c = true ∧ d = true) := by
  cases a <;> cases b <;> cases c <;> cases d <;> decide

/-- C8: `QueryInterpolatedTileBaseHeightAtLocation` samples the four corners
of the leaf-size grid cell surrounding the point, on a grid offset by half a
leaf size from the region minimum (i.e. aligned to leaf-tile centers),
bilinearly interpolates the four height samples, and succeeds iff all four
corner samples report a valid hit (lines 187-222).  The corner/fraction
values are bound by the equation hypotheses. -/
theorem queryInterpolated_characterization (t : FMeshQuadTree) (p : FVector2D)
    (h : 0 < t.leafSize) (gx gy nx ny c00x c00y : Rat)
    (hgx : gx = t.tileRegion.lo.x - t.leafSize / 2)
    (hgy : gy = t.tileRegion.lo.y - t.leafSize / 2)
    (hnx : nx = (p.x - gx) / t.leafSize)
    (hny : ny = (p.y - gy) / t.leafSize)
    (hcx : c00x = ((⌊nx⌋ : Int) : Rat) * t.leafSize + gx)
    (hcy : c00y = ((⌊ny⌋ : Int) : Rat) * t.leafSize + gy) :
    (c00x ≤ p.x ∧ p.x < c00x + t.leafSize ∧
     c00y ≤ p.y ∧ p.y < c00y + t.leafSize) ∧
    (∃ i j : Int, c00x = t.tileRegion.lo.x - t.leafSize / 2 + (i : Rat) * t.leafSize ∧
                  c00y = t.tileRegion.lo.y - t.leafSize / 2 + (j : Rat) * t.leafSize) ∧
    ((t.queryInterpolatedTileBaseHeightAtLocation p).1 = true ↔
      ((t.queryTileBaseHeightAtLocation ⟨c00x, c00y⟩).1 = true ∧
       (t.queryTileBaseHeightAtLocation ⟨c00x + t.leafSize, c00y⟩).1 = true ∧
       (t.queryTileBaseHeightAtLocation ⟨c00x, c00y + t.leafSize⟩).1 = true ∧
       (t.queryTileBaseHeightAtLocation ⟨c00x + t.leafSize, c00y + t.leafSize⟩).1 = true)) ∧
    (t.queryInterpolatedTileBaseHeightAtLocation p).2 =
      biLerp (t.queryTileBaseHeightAtLocation ⟨c00x, c00y⟩).2
             (t.queryTileBaseHeightAtLocation ⟨c00x + t.leafSize, c00y⟩).2
             (t.queryTileBaseHeightAtLocation ⟨c00x, c00y + t.leafSize⟩).2
             (t.queryTileBaseHeightAtLocation ⟨c00x + t.leafSize, c00y + t.leafSize⟩).2
             (nx - ((⌊nx⌋ : Int) : Rat)) (ny - ((⌊ny⌋ : Int) : Rat)) := by
  have hL : t.leafSize ≠ 0 := ne_of_gt h
  have hpx : p.x = gx + nx * t.leafSize := by
    rw [hnx]; field_simp
  have hpy : p.y = gy + ny * t.leafSize := by
    rw [hny]; field_simp
  refine ⟨⟨?_, ?_, ?_, ?_⟩, ⟨⌊nx⌋, ⌊ny⌋, by rw [hcx, hgx]; ring, by rw [hcy, hgy]; ring⟩,
    ?_, ?_⟩
  · rw [hcx, hpx]
    have := mul_le_mul_of_nonneg_right (Int.floor_le nx) (le_of_lt h)
    linarith
  · rw [hcx, hpx]
    have := mul_lt_mul_of_pos_right (Int.lt_floor_add_one nx) h
    push_cast at this ⊢
    linarith
  · rw [hcy, hpy]
    have := mul_le_mul_of_nonneg_right (Int.floor_le ny) (le_of_lt h)
    linarith
  · rw [hcy, hpy]
    have := mul_lt_mul_of_pos_right (Int.lt_floor_add_one ny) h
    push_cast at this ⊢
    linarith
  · simp only [FMeshQuadTree.queryInterpolatedTileBaseHeightAtLocation]
    rw [← hgx, ← hgy, ← hnx, ← hny, ← hcx, ← hcy]
    exact countFour_eq_four_iff _ _ _ _
  · simp only [FMeshQuadTree.queryInterpolatedTileBaseHeightAtLocation]
    rw [← hgx, ← hgy, ← hnx, ← hny, ← hcx, ← hcy]

/-- Witness for C8 on the tiny tree (leaf size 32): the point `(10,10)` falls
in the sample cell anchored at `(-16,-16)` with fractions `13/16`. -/
theorem queryInterpolated_characterization_witness :
    ((0 : Rat) < tinyTree0.leafSize ∧
     (-16 : Rat) = tinyTree0.tileRegion.lo.x - tinyTree0.leafSize / 2 ∧
     (-16 : Rat) = tinyTree0.tileRegion.lo.y - tinyTree0.leafSize / 2 ∧
     (13 / 16 : Rat) = ((10 : Rat) - (-16)) / tinyTree0.leafSize ∧
     (13 / 16 : Rat) = ((10 : Rat) - (-16)) / tinyTree0.leafSize ∧
     (-16 : Rat) = ((⌊(13 / 16 : Rat)⌋ : Int) : Rat) * tinyTree0.leafSize + (-16) ∧
     (-16 : Rat) = ((⌊(13 / 16 : Rat)⌋ : Int) : Rat) * tinyTree0.leafSize + (-16)) ∧
    (((-16 : Rat) ≤ (10 : Rat) ∧ (10 : Rat) < -16 + tinyTree0.leafSize ∧
      (-16 : Rat) ≤ (10 : Rat) ∧ (10 : Rat) < -16 + tinyTree0.leafSize) ∧
     (∃ i j : Int,
        (-16 : Rat) = tinyTree0.tileRegion.lo.x - tinyTree0.leafSize / 2 +
          (i : Rat) * tinyTree0.leafSize ∧
        (-16 : Rat) = tinyTree0.tileRegion.lo.y - tinyTree0.leafSize / 2 +
          (j : Rat) * tinyTree0.leafSize) ∧
     ((tinyTree0.queryInterpolatedTileBaseHeightAtLocation ⟨10, 10⟩).1 = true ↔
       ((tinyTree0.queryTileBaseHeightAtLocation ⟨-16, -16⟩).1 = true ∧
        (tinyTree0.queryTileBaseHeightAtLocation ⟨-16 + tinyTree0.leafSize, -16⟩).1 = true ∧
        (tinyTree0.queryTileBaseHeightAtLocation ⟨-16, -16 + tinyTree0.leafSize⟩).1 = true ∧
        (tinyTree0.queryTileBaseHeightAtLocation
          ⟨-16 + tinyTree0.leafSize, -16 + tinyTree0.leafSize⟩).1 = true)) ∧
     (tinyTree0.queryInterpolatedTileBaseHeightAtLocation ⟨10, 10⟩).2 =
       biLerp (tinyTree0.queryTileBaseHeightAtLocation ⟨-16, -16⟩).2
              (tinyTree0.queryTileBaseHeightAtLocation ⟨-16 + tinyTree0.leafSize, -16⟩).2
              (tinyTree0.queryTileBaseHeightAtLocation ⟨-16, -16 + tinyTree0.leafSize⟩).2
              (tinyTree0.queryTileBaseHeightAtLocation
                ⟨-16 + tinyTree0.leafSize, -16 + tinyTree0.leafSize⟩).2
              ((13 / 16 : Rat) - ((⌊(13 / 16 : Rat)⌋ : Int) : Rat))
              ((13 / 16 : Rat) - ((⌊(13 / 16 : Rat)⌋ : Int) : Rat))) :=
  ⟨⟨by with_unfolding_all decide, by with_unfolding_all decide,
    by with_unfolding_all decide, by with_unfolding_all decide,
    by with_unfolding_all decide, by with_unfolding_all decide,
    by with_unfolding_all decide⟩,
   queryInterpolated_characterization tinyTree0 ⟨10, 10⟩
     (by with_unfolding_all decide) (-16) (-16) (13 / 16) (13 / 16) (-16) (-16)
     (by with_unfolding_all decide) (by with_unfolding_all decide)
     (by with_unfolding_all decide) (by with_unfolding_all decide)
     (by with_unfolding_all decide) (by with_unfolding_all decide)⟩

/-- Counterexample to C1 as stated: on a tree whose render-data table has two
distinct materials (`twoMatTree`, where table slot 2 carries material bucket
index 1, assigned by `BuildMaterialIndices`), the LOD-selection traversal over
a complete uniform node assigned to slot 2 emits exactly one instance whose
stored bucket index is `0` - but the node's render-data material-bucket index
times the density-bucket count plus the clamped density index is `2`.  The
histogram bucket `0` is incremented, bucket `2` is not: `AddNodeForRender`
hard-codes `MaterialIndex = 0` (line 607). -/
theorem bucketIndex_ignores_material_counterexample :
    ((twoMatTree.nodeData.rd 2).materialIndex = 1 ∧ cDesc.densityCount = 2) ∧
    (FNode.selectLOD twoMatTree.nodeData 4 0 cNode cDesc
        emptyOutput).stagingInstanceData.map (fun d => d.bucketIndex) = [0] ∧
    (FNode.selectLOD twoMatTree.nodeData 4 0 cNode cDesc
        emptyOutput).bucketInstanceCounts 0 = 1 ∧
    (FNode.selectLOD twoMatTree.nodeData 4 0 cNode cDesc
        emptyOutput).bucketInstanceCounts
      ((twoMatTree.nodeData.rd 2).materialIndex * cDesc.densityCount +
        min 0 (cDesc.densityCount - 1)) = 0 ∧
    (twoMatTree.nodeData.rd 2).materialIndex * cDesc.densityCount +
        min 0 (cDesc.densityCount - 1) ≠ (0 : Int) := by
  refine ⟨⟨?_, ?_⟩, ?_, ?_, ?_, ?_⟩ <;> with_unfolding_all decide

/-- C1 (amended): every instance emitted through `AddNodeForRender` stores the
bucket index `0 * DensityCount + min(density, DensityCount - 1)` - the
hard-coded material bucket 0 times the density-bucket count plus the clamped
density index - and increments exactly that histogram bucket, leaving all
other buckets unchanged (lines 603-626). -/
theorem addNodeForRender_bucket_is_clamped_density (n : FNode)
    (rd : FQuadMeshRenderData) (dens : Int) (lvl : Nat) (desc : FTraversalDesc)
    (out : FTraversalOutput) :
    (∃ d : FStagingInstanceData,
       (n.addNodeForRender rd dens lvl desc out).stagingInstanceData =
         out.stagingInstanceData ++ [d] ∧
       d.bucketIndex = 0 * desc.densityCount + min dens (desc.densityCount - 1)) ∧
    ((n.addNodeForRender rd dens lvl desc out).bucketInstanceCounts
        (0 * desc.densityCount + min dens (desc.densityCount - 1)) =
      out.bucketInstanceCounts
        (0 * desc.densityCount + min dens (desc.densityCount - 1)) + 1) ∧
    ∀ b : Int, b ≠ 0 * desc.densityCount + min dens (desc.densityCount - 1) →
      (n.addNodeForRender rd dens lvl desc out).bucketInstanceCounts b =
        out.bucketInstanceCounts b := by
  refine ⟨⟨_, rfl, rfl⟩, ?_, ?_⟩
  · simp [FNode.addNodeForRender]
  · intro b hb
    rw [zero_mul, zero_add] at hb
    simp [FNode.addNodeForRender, hb]

/-- Half-open XY containment, unfolded to propositions. -/
theorem containsXYMinEdges_iff (b : FBox) (p : FVector2D) :
    b.containsXYMinEdges p = true ↔
      (b.lo.x ≤ p.x ∧ p.x < b.hi.x ∧ b.lo.y ≤ p.y ∧ p.y < b.hi.y) := by
  simp [FBox.containsXYMinEdges, and_assoc, ge_iff_le]

/-- Containment in a synthesized child's box, written out through the
quadrant offset. -/
theorem synthChild_contains_iff (n : FNode) (i : Fin 4) (ox oy : Rat)
    (ho : quadrantOffset i = (ox, oy)) (p : FVector2D) :
    (n.synthChild i).bounds.containsXYMinEdges p = true ↔
      (n.bounds.lo.x + (n.bounds.hi.x - n.bounds.lo.x) / 2 * ox ≤ p.x ∧
       p.x < n.bounds.lo.x + (n.bounds.hi.x - n.bounds.lo.x) / 2 * ox +
         (n.bounds.hi.x - n.bounds.lo.x) / 2 ∧
       n.bounds.lo.y + (n.bounds.hi.y - n.bounds.lo.y) / 2 * oy ≤ p.y ∧
       p.y < n.bounds.lo.y + (n.bounds.hi.y - n.bounds.lo.y) / 2 * oy +
         (n.bounds.hi.y - n.bounds.lo.y) / 2) := by
  rw [containsXYMinEdges_iff]
  rw [show (n.synthChild i).bounds.lo.x =
    n.bounds.lo.x + (n.bounds.hi.x - n.bounds.lo.x) / 2 * (quadrantOffset i).1 from rfl]
  rw [show (n.synthChild i).bounds.lo.y =
    n.bounds.lo.y + (n.bounds.hi.y - n.bounds.lo.y) / 2 * (quadrantOffset i).2 from rfl]
  rw [show (n.synthChild i).bounds.hi.x =
    n.bounds.lo.x + (n.bounds.hi.x - n.bounds.lo.x) / 2 * (quadrantOffset i).1 +
      (n.bounds.hi.x - n.bounds.lo.x) / 2 from rfl]
  rw [show (n.synthChild i).bounds.hi.y =
    n.bounds.lo.y + (n.bounds.hi.y - n.bounds.lo.y) / 2 * (quadrantOffset i).2 +
      (n.bounds.hi.y - n.bounds.lo.y) / 2 from rfl]
  rw [ho]

/-- C6: when the LOD traversal must descend into a node whose subtree is
complete and identity-uniform (hence has no materialized children), both
`SelectLOD` (in its within-finer-band branch) and `SelectLODWithinBounds`
recurse through exactly the four synthesized temporary children, one LOD level
down, folding the output left-to-right exactly as they would over real
children and leaving the node arena untouched (the arena `nd` is passed
unchanged).  The synthesized children inherit the node's render-data identity,
transition identity, completeness and uniformity flags, their XY boxes follow
the same halving rule as real children (`AddNodes`' quadrant rule), and they
partition the parent's half-open XY footprint (lines 357-392, 419-452). -/
theorem selectLOD_synthesizes_virtual_children (nd : FNodeData)
    (rfuel lvl : Nat) (n : FNode) (desc : FTraversalDesc)
    (out : FTraversalOutput)
    (hfr : desc.frustum n.bounds.getCenter n.bounds.getExtent = true)
    (hc : n.hasCompleteSubtree = true) (hu : n.isSubtreeSameQuadMesh = true)
    (hd1 : ¬ n.closestSqDistToObserver desc > desc.lodDistancesSq (lvl + 1))
    (hd2 : ¬ n.closestSqDistToObserver desc > desc.lodDistancesSq lvl)
    (hlow : (lvl + 1 : Nat) ≠ desc.lowestLOD) :
    (FNode.selectLOD nd rfuel (lvl + 1) n desc out =
      (List.finRange 4).foldl
        (fun acc i => FNode.selectLOD nd rfuel lvl (n.synthChild i) desc acc)
        out) ∧
    (FNode.selectLODWithinBounds nd (lvl + 1) n desc out =
      (List.finRange 4).foldl
        (fun acc i =>
          FNode.selectLODWithinBounds nd lvl (n.synthChild i) desc acc)
        out) ∧
    (∀ i : Fin 4,
      (n.synthChild i).quadMeshIndex = n.quadMeshIndex ∧
      (n.synthChild i).transitionQuadMeshIndex = n.transitionQuadMeshIndex ∧
      (n.synthChild i).hasCompleteSubtree = n.hasCompleteSubtree ∧
      (n.synthChild i).isSubtreeSameQuadMesh = n.isSubtreeSameQuadMesh ∧
      (n.synthChild i).bounds.lo.x =
        n.bounds.lo.x + (n.bounds.hi.x - n.bounds.lo.x) / 2 * (quadrantOffset i).1 ∧
      (n.synthChild i).bounds.lo.y =
        n.bounds.lo.y + (n.bounds.hi.y - n.bounds.lo.y) / 2 * (quadrantOffset i).2 ∧
      (n.synthChild i).bounds.hi.x =
        (n.synthChild i).bounds.lo.x + (n.bounds.hi.x - n.bounds.lo.x) / 2 ∧
      (n.synthChild i).bounds.hi.y =
        (n.synthChild i).bounds.lo.y + (n.bounds.hi.y - n.bounds.lo.y) / 2) ∧
    (∀ p : FVector2D,
      n.bounds.containsXYMinEdges p = true ↔
        ∃ i : Fin 4, (n.synthChild i).bounds.containsXYMinEdges p = true) ∧
    (∀ p : FVector2D, ∀ i j : Fin 4,
      (n.synthChild i).bounds.containsXYMinEdges p = true →
      (n.synthChild j).bounds.containsXYMinEdges p = true → i = j) := by
  have hbeq : ((lvl + 1 : Nat) == desc.lowestLOD) = false := by
    exact beq_eq_false_iff_ne.mpr hlow
  refine ⟨?_, ?_, ?_, ?_, ?_⟩
  · rw [FNode.selectLOD]
    simp only [hfr, Bool.not_true, Bool.false_eq_true, if_false, if_neg hd1,
      decide_eq_false hd2, hbeq, Bool.or_self, hc, hu, Bool.and_self, if_true]
  · rw [FNode.selectLODWithinBounds]
    simp only [hfr, Bool.not_true, Bool.false_eq_true, if_false, hc, hu,
      Bool.and_self, if_true]
  · intro i
    refine ⟨rfl, rfl, by rw [hc]; rfl, by rw [hu]; rfl, rfl, rfl, ?_, ?_⟩ <;>
      simp [FNode.synthChild, FBox.getExtent]
  · intro p
    rw [containsXYMinEdges_iff]
    constructor
    · rintro ⟨h1, h2, h3, h4⟩
      by_cases hx : p.x < n.bounds.lo.x + (n.bounds.hi.x - n.bounds.lo.x) / 2 <;>
        by_cases hy : p.y < n.bounds.lo.y + (n.bounds.hi.y - n.bounds.lo.y) / 2
      · exact ⟨0, (synthChild_contains_iff n 0 0 0 rfl p).mpr
          ⟨by linarith, by linarith, by linarith, by linarith⟩⟩
      · exact ⟨2, (synthChild_contains_iff n 2 0 1 rfl p).mpr
          ⟨by linarith, by linarith, by linarith, by linarith⟩⟩
      · exact ⟨1, (synthChild_contains_iff n 1 1 0 rfl p).mpr
          ⟨by linarith, by linarith, by linarith, by linarith⟩⟩
      · exact ⟨3, (synthChild_contains_iff n 3 1 1 rfl p).mpr
          ⟨by linarith, by linarith, by linarith, by linarith⟩⟩
    · rintro ⟨i, hi⟩
      fin_cases i
      · obtain ⟨a1, a2, a3, a4⟩ := (synthChild_contains_iff n 0 0 0 rfl p).mp hi
        exact ⟨by linarith, by linarith, by linarith, by linarith⟩
      · obtain ⟨a1, a2, a3, a4⟩ := (synthChild_contains_iff n 1 1 0 rfl p).mp hi
        exact ⟨by linarith, by linarith, by linarith, by linarith⟩
      · obtain ⟨a1, a2, a3, a4⟩ := (synthChild_contains_iff n 2 0 1 rfl p).mp hi
        exact ⟨by linarith, by linarith, by linarith, by linarith⟩
      · obtain ⟨a1, a2, a3, a4⟩ := (synthChild_contains_iff n 3 1 1 rfl p).mp hi
        exact ⟨by linarith, by linarith, by linarith, by linarith⟩
  · intro p i j hi hj
    have k0 := fun hq => (synthChild_contains_iff n 0 0 0 rfl p).mp hq
    have k1 := fun hq => (synthChild_contains_iff n 1 1 0 rfl p).mp hq
    have k2 := fun hq => (synthChild_contains_iff n 2 0 1 rfl p).mp hq
    have k3 := fun hq => (synthChild_contains_iff n 3 1 1 rfl p).mp hq
    fin_cases i <;> fin_cases j
    · rfl
    · obtain ⟨a1, a2, a3, a4⟩ := k0 hi; obtain ⟨b1, b2, b3, b4⟩ := k1 hj; exfalso; linarith
    · obtain ⟨a1, a2, a3, a4⟩ := k0 hi; obtain ⟨b1, b2, b3, b4⟩ := k2 hj; exfalso; linarith
    · obtain ⟨a1, a2, a3, a4⟩ := k0 hi; obtain ⟨b1, b2, b3, b4⟩ := k3 hj; exfalso; linarith
    · obtain ⟨a1, a2, a3, a4⟩ := k1 hi; obtain ⟨b1, b2, b3, b4⟩ := k0 hj; exfalso; linarith
    · rfl
    · obtain ⟨a1, a2, a3, a4⟩ := k1 hi; obtain ⟨b1, b2, b3, b4⟩ := k2 hj; exfalso; linarith
    · obtain ⟨a1, a2, a3, a4⟩ := k1 hi; obtain ⟨b1, b2, b3, b4⟩ := k3 hj; exfalso; linarith
    · obtain ⟨a1, a2, a3, a4⟩ := k2 hi; obtain ⟨b1, b2, b3, b4⟩ := k0 hj; exfalso; linarith
    · obtain ⟨a1, a2, a3, a4⟩ := k2 hi; obtain ⟨b1, b2, b3, b4⟩ := k1 hj; exfalso; linarith
    · rfl
    · obtain ⟨a1, a2, a3, a4⟩ := k2 hi; obtain ⟨b1, b2, b3, b4⟩ := k3 hj; exfalso; linarith
    · obtain ⟨a1, a2, a3, a4⟩ := k3 hi; obtain ⟨b1, b2, b3, b4⟩ := k0 hj; exfalso; linarith
    · obtain ⟨a1, a2, a3, a4⟩ := k3 hi; obtain ⟨b1, b2, b3, b4⟩ := k1 hj; exfalso; linarith
    · obtain ⟨a1, a2, a3, a4⟩ := k3 hi; obtain ⟨b1, b2, b3, b4⟩ := k2 hj; exfalso; linarith
    · rfl

/-- Witness for C6: the concrete complete uniform node `cNode` at LOD level 1
under the concrete descriptor `cDesc`. -/
theorem selectLOD_synthesizes_virtual_children_witness :
    (cDesc.frustum cNode.bounds.getCenter cNode.bounds.getExtent = true ∧
     cNode.hasCompleteSubtree = true ∧ cNode.isSubtreeSameQuadMesh = true ∧
     ¬ cNode.closestSqDistToObserver cDesc > cDesc.lodDistancesSq (0 + 1) ∧
     ¬ cNode.closestSqDistToObserver cDesc > cDesc.lodDistancesSq 0 ∧
     (0 + 1 : Nat) ≠ cDesc.lowestLOD) ∧
    ((FNode.selectLOD tinyTreeRD.nodeData 4 (0 + 1) cNode cDesc emptyOutput =
       (List.finRange 4).foldl
         (fun acc i =>
           FNode.selectLOD tinyTreeRD.nodeData 4 0 (cNode.synthChild i) cDesc acc)
         emptyOutput) ∧
     (FNode.selectLODWithinBounds tinyTreeRD.nodeData (0 + 1) cNode cDesc
         emptyOutput =
       (List.finRange 4).foldl
         (fun acc i =>
           FNode.selectLODWithinBounds tinyTreeRD.nodeData 0 (cNode.synthChild i)
             cDesc acc)
         emptyOutput) ∧
     (∀ i : Fin 4,
       (cNode.synthChild i).quadMeshIndex = cNode.quadMeshIndex ∧
       (cNode.synthChild i).transitionQuadMeshIndex = cNode.transitionQuadMeshIndex ∧
       (cNode.synthChild i).hasCompleteSubtree = cNode.hasCompleteSubtree ∧
       (cNode.synthChild i).isSubtreeSameQuadMesh = cNode.isSubtreeSameQuadMesh ∧
       (cNode.synthChild i).bounds.lo.x =
         cNode.bounds.lo.x +
           (cNode.bounds.hi.x - cNode.bounds.lo.x) / 2 * (quadrantOffset i).1 ∧
       (cNode.synthChild i).bounds.lo.y =
         cNode.bounds.lo.y +
           (cNode.bounds.hi.y - cNode.bounds.lo.y) / 2 * (quadrantOffset i).2 ∧
       (cNode.synthChild i).bounds.hi.x =
         (cNode.synthChild i).bounds.lo.x +
           (cNode.bounds.hi.x - cNode.bounds.lo.x) / 2 ∧
       (cNode.synthChild i).bounds.hi.y =
         (cNode.synthChild i).bounds.lo.y +
           (cNode.bounds.hi.y - cNode.bounds.lo.y) / 2) ∧
     (∀ p : FVector2D,
       cNode.bounds.containsXYMinEdges p = true ↔
         ∃ i : Fin 4, (cNode.synthChild i).bounds.containsXYMinEdges p = true) ∧
     (∀ p : FVector2D, ∀ i j : Fin 4,
       (cNode.synthChild i).bounds.containsXYMinEdges p = true →
       (cNode.synthChild j).bounds.containsXYMinEdges p = true → i = j)) :=
  ⟨⟨rfl, rfl, rfl, by with_unfolding_all decide, by with_unfolding_all decide,
    by decide⟩,
   selectLOD_synthesizes_virtual_children tinyTreeRD.nodeData 4 0 cNode cDesc
     emptyOutput rfl rfl rfl (by with_unfolding_all decide)
     (by with_unfolding_all decide) (by decide)⟩

/-- Arena length is unchanged by `setNode`. -/
theorem length_setNode (nd : FNodeData) (i : Nat) (n : FNode) :
    (nd.setNode i n).nodes.length = nd.nodes.length := by
  simp [FNodeData.setNode]

/-- Reading back the slot just written. -/
theorem node_setNode_self (nd : FNodeData) (i : Nat) (n : FNode)
    (h : i < nd.nodes.length) : (nd.setNode i n).node i = n := by
  simp [FNodeData.setNode, FNodeData.node, List.getD_eq_getElem?_getD,
    List.getElem?_set_self h]

/-- Reading another slot after a write. -/
theorem node_setNode_ne (nd : FNodeData) (i j : Nat) (n : FNode) (h : j ≠ i) :
    (nd.setNode i n).node j = nd.node j := by
  simp [FNodeData.setNode, FNodeData.node, List.getD_eq_getElem?_getD,
    List.getElem?_set_ne (Ne.symm h)]

/-- `setNode` leaves the render-data table alone. -/
theorem rd_setNode (nd : FNodeData) (i : Nat) (n : FNode) :
    (nd.setNode i n).quadMeshRenderData = nd.quadMeshRenderData := rfl

/-- Out-of-range arena reads give the default node. -/
theorem node_out_of_range (nd : FNodeData) (j : Nat)
    (h : nd.nodes.length ≤ j) : nd.node j = FNode.defaultNode := by
  simp [FNodeData.node, List.getD_eq_getElem?_getD,
    List.getElem?_eq_none (by omega : nd.nodes.length ≤ j)]

/-- A node with its completeness flag set lies inside the arena. -/
theorem lt_length_of_complete (nd : FNodeData) (p : Nat)
    (h : (nd.node p).hasCompleteSubtree = true) : p < nd.nodes.length := by
  by_contra hge
  rw [node_out_of_range nd p (by omega)] at h
  exact absurd h (by decide)

/-- Child slots after `setChild`. -/
theorem child_setChild (n : FNode) (i j : Fin 4) (v : Nat) :
    (n.setChild i v).child j = if j = i then v else n.child j := by
  fin_cases i <;> fin_cases j <;> simp [FNode.setChild, FNode.child]

/-- `setChild` only touches the child slots. -/
theorem setChild_fields (n : FNode) (i : Fin 4) (v : Nat) :
    (n.setChild i v).bounds = n.bounds ∧
    (n.setChild i v).parentIndex = n.parentIndex ∧
    (n.setChild i v).quadMeshIndex = n.quadMeshIndex ∧
    (n.setChild i v).transitionQuadMeshIndex = n.transitionQuadMeshIndex ∧
    (n.setChild i v).hasMaterial = n.hasMaterial ∧
    (n.setChild i v).isSubtreeSameQuadMesh = n.isSubtreeSameQuadMesh ∧
    (n.setChild i v).hasCompleteSubtree = n.hasCompleteSubtree := by
  fin_cases i <;> exact ⟨rfl, rfl, rfl, rfl, rfl, rfl, rfl⟩

/-- The quadrant offsets lie in `[0,1]`. -/
theorem quadrantOffset_bounds (i : Fin 4) :
    0 ≤ (quadrantOffset i).1 ∧ (quadrantOffset i).1 ≤ 1 ∧
    0 ≤ (quadrantOffset i).2 ∧ (quadrantOffset i).2 ≤ 1 := by
  fin_cases i <;> refine ⟨?_, ?_, ?_, ?_⟩ <;> norm_num [quadrantOffset]

/-- XY containment is transitive. -/
theorem xyContainedIn_trans (a b c : FBox) (h1 : a.xyContainedIn b)
    (h2 : b.xyContainedIn c) : a.xyContainedIn c := by
  obtain ⟨p1, p2, p3, p4⟩ := h1
  obtain ⟨q1, q2, q3, q4⟩ := h2
  exact ⟨by linarith, by linarith, by linarith, by linarith⟩

/-- A nonempty box contained in another intersects it (closed test). -/
theorem intersectXY_of_contained (a b : FBox) (h : a.xyContainedIn b)
    (hx : a.lo.x ≤ a.hi.x) (hy : a.lo.y ≤ a.hi.y) :
    a.intersectXY b = true := by
  obtain ⟨p1, p2, p3, p4⟩ := h
  simp only [FBox.intersectXY, Bool.not_eq_true', Bool.or_eq_false_iff,
    decide_eq_false_iff_not, not_lt]
  exact ⟨⟨⟨by linarith, by linarith⟩, by linarith⟩, by linarith⟩

/-- Reading below the appended slot (the `Emplace` step of `AddNodes`). -/
theorem node_append_lt (nd : FNodeData) (x : FNode) (b : Bool) (j : Nat)
    (h : j < nd.nodes.length) :
    ({ nd with nodes := nd.nodes ++ [x], overflowed := b } : FNodeData).node j =
      nd.node j := by
  simp [FNodeData.node, List.getD_eq_getElem?_getD, List.getElem?_append_left h]

/-- Reading the appended slot. -/
theorem node_append_len (nd : FNodeData) (x : FNode) (b : Bool) :
    ({ nd with nodes := nd.nodes ++ [x], overflowed := b } : FNodeData).node
      nd.nodes.length = x := by
  simp [FNodeData.node, List.getD_eq_getElem?_getD, List.getElem?_concat_length]

/-- One quadrant step of a covered `AddNodes` call preserves `CoveredInv`,
marking the processed quadrant as done. -/
theorem covered_step (meshB quadB : FBox) (qIdx lvl' : Nat)
    (IH : AddNodesCoveredSpec meshB quadB qIdx lvl')
    (nd : FNodeData) (self : Nat) (hself : self < nd.nodes.length)
    (hquad : (nd.node self).bounds.xyContainedIn quadB)
    (hmesh : (nd.node self).bounds.xyContainedIn meshB)
    (hlx : (nd.node self).bounds.lo.x ≤ (nd.node self).bounds.hi.x)
    (hly : (nd.node self).bounds.lo.y ≤ (nd.node self).bounds.hi.y)
    (hroot : (nd.node 0).parentIndex = INVALID_PARENT)
    (halfX halfY : Rat)
    (hhx : halfX = ((nd.node self).bounds.hi.x - (nd.node self).bounds.lo.x) / 2)
    (hhy : halfY = ((nd.node self).bounds.hi.y - (nd.node self).bounds.lo.y) / 2)
    (ndk : FNodeData) (prevk : FNode) (done : Fin 4 → Bool) (k : Fin 4)
    (hdone : done k = false)
    (inv : CoveredInv quadB qIdx nd self ndk prevk done) :
    CoveredInv quadB qIdx nd self
      ((FNode.addNodesStep
          (fun a b c => FNode.addNodes meshB quadB qIdx lvl' a b c)
          meshB quadB self self halfX halfY (ndk, prevk) k).1)
      ((FNode.addNodesStep
          (fun a b c => FNode.addNodes meshB quadB qIdx lvl' a b c)
          meshB quadB self self halfX halfY (ndk, prevk) k).2)
      (fun q => if q = k then true else done q) := by
  obtain ⟨hmono, hrdeq, hpre, hpar, hlox, hloy, hhix, hhiy, hcomp, hsame,
    hqidx, hhm, hempty, hdonep, hnewpf, hprev⟩ := inv
  have hL0 : 0 < nd.nodes.length := Nat.lt_of_le_of_lt (Nat.zero_le self) hself
  have hLk : nd.nodes.length ≤ ndk.nodes.length := hmono
  have hhalfx : 0 ≤ halfX := by
    rw [hhx]; linarith
  have hhalfy : 0 ≤ halfY := by
    rw [hhy]; linarith
  obtain ⟨ob1, ob2, ob3, ob4⟩ := quadrantOffset_bounds k
  have hci : (ndk.node self).child k = 0 := hempty k hdone
  -- the synthesized child box of this quadrant
  set cB : FBox :=
    ⟨⟨(ndk.node self).bounds.lo.x + halfX * (quadrantOffset k).1,
      (ndk.node self).bounds.lo.y + halfY * (quadrantOffset k).2,
      quadB.lo.z⟩,
     ⟨(ndk.node self).bounds.lo.x + halfX * (quadrantOffset k).1 + halfX,
      (ndk.node self).bounds.lo.y + halfY * (quadrantOffset k).2 + halfY,
      quadB.hi.z⟩, true⟩ with hcB
  have hsubparent : cB.xyContainedIn (nd.node self).bounds := by
    refine ⟨?_, ?_, ?_, ?_⟩
    · rw [hcB]
      show (nd.node self).bounds.lo.x ≤
        (ndk.node self).bounds.lo.x + halfX * (quadrantOffset k).1
      rw [hlox]
      nlinarith
    · rw [hcB]
      show (nd.node self).bounds.lo.y ≤
        (ndk.node self).bounds.lo.y + halfY * (quadrantOffset k).2
      rw [hloy]
      nlinarith
    · rw [hcB]
      show (ndk.node self).bounds.lo.x + halfX * (quadrantOffset k).1 + halfX ≤
        (nd.node self).bounds.hi.x
      rw [hlox]
      nlinarith [hhx]
    · rw [hcB]
      show (ndk.node self).bounds.lo.y + halfY * (quadrantOffset k).2 + halfY ≤
        (nd.node self).bounds.hi.y
      rw [hloy]
      nlinarith [hhy]
  have hcbq : cB.xyContainedIn quadB := xyContainedIn_trans _ _ _ hsubparent hquad
  have hcbm : cB.xyContainedIn meshB := xyContainedIn_trans _ _ _ hsubparent hmesh
  have hcblx : cB.lo.x ≤ cB.hi.x := by
    rw [hcB]
    show (ndk.node self).bounds.lo.x + halfX * (quadrantOffset k).1 ≤
      (ndk.node self).bounds.lo.x + halfX * (quadrantOffset k).1 + halfX
    linarith
  have hcbly : cB.lo.y ≤ cB.hi.y := by
    rw [hcB]
    show (ndk.node self).bounds.lo.y + halfY * (quadrantOffset k).2 ≤
      (ndk.node self).bounds.lo.y + halfY * (quadrantOffset k).2 + halfY
    linarith
  have hint1 : cB.intersectXY quadB = true :=
    intersectXY_of_contained _ _ hcbq hcblx hcbly
  have hint2 : cB.intersectXY meshB = true :=
    intersectXY_of_contained _ _ hcbm hcblx hcbly
  -- the arena after Emplace and initialization of the new child
  set ndE : FNodeData := ({ ndk with
    nodes := ndk.nodes ++ [FNode.defaultNode],
    overflowed := ndk.overflowed || !(ndk.nodes.length < ndk.capacity) } :
      FNodeData) with hndE
  set ndE2 : FNodeData :=
    ndE.setNode self ((ndE.node self).setChild k ndk.nodes.length) with hndE2
  set ndE3 : FNodeData := ndE2.setNode ndk.nodes.length
    ({ FNode.defaultNode with bounds := cB, parentIndex := self } : FNode)
    with hndE3
  have hselfk : self < ndk.nodes.length := lt_of_lt_of_le hself hLk
  have hlenE : ndE.nodes.length = ndk.nodes.length + 1 := by
    rw [hndE]; simp
  have hlenE2 : ndE2.nodes.length = ndk.nodes.length + 1 := by
    rw [hndE2, length_setNode, hlenE]
  have hlenE3 : ndE3.nodes.length = ndk.nodes.length + 1 := by
    rw [hndE3, length_setNode, hlenE2]
  have hsne : self ≠ ndk.nodes.length := by omega
  have hEself : ndE.node self = ndk.node self := by
    rw [hndE]; exact node_append_lt ndk _ _ self hselfk
  have hE2self : ndE2.node self = (ndk.node self).setChild k ndk.nodes.length := by
    rw [hndE2, node_setNode_self _ _ _ (by omega), hEself]
  have hE3self : ndE3.node self = (ndk.node self).setChild k ndk.nodes.length := by
    rw [hndE3, node_setNode_ne _ _ _ _ hsne, hE2self]
  have hE3new : ndE3.node ndk.nodes.length =
      { FNode.defaultNode with bounds := cB, parentIndex := self } := by
    rw [hndE3]; exact node_setNode_self _ _ _ (by omega)
  have hE3other : ∀ j, j < ndk.nodes.length → j ≠ self →
      ndE3.node j = ndk.node j := by
    intro j hj hjs
    rw [hndE3, node_setNode_ne _ _ _ _ (by omega : j ≠ ndk.nodes.length),
      hndE2, node_setNode_ne _ _ _ _ hjs, hndE]
    exact node_append_lt ndk _ _ j hj
  have hE3rd : ndE3.quadMeshRenderData = nd.quadMeshRenderData := by
    rw [hndE3, rd_setNode, hndE2, rd_setNode, hndE]
    exact hrdeq
  have hroot3 : (ndE3.node 0).parentIndex = INVALID_PARENT := by
    by_cases h0 : self = 0
    · rw [← h0, hE3self, (setChild_fields _ _ _).2.1, hpar, h0, hroot]
    · rw [hE3other 0 (by omega) (Ne.symm h0), hpre 0 hL0 (Ne.symm h0), hroot]
  have hIH := IH ndE3 ndk.nodes.length (by omega)
    (by rw [hE3new]; rfl) (by rw [hE3new]; rfl) (by rw [hE3new]; rfl)
    (by rw [hE3new]; rfl)
    (by rw [hE3new]; exact hcbq) (by rw [hE3new]; exact hcbm)
    (by rw [hE3new]; exact hcblx) (by rw [hE3new]; exact hcbly) hroot3
  obtain ⟨ihlen, ihrd, ihpre, ihc, ihs, ihq, ihm, ihpar, ihlox, ihloy,
    ihhix, ihhiy, ihnewpf⟩ := hIH
  set nd' := FNode.addNodes meshB quadB qIdx lvl' ndE3 ndk.nodes.length
    ndk.nodes.length with hnd'
  have hself3 : self < ndE3.nodes.length := by omega
  have hndself : nd'.node self = (ndk.node self).setChild k ndk.nodes.length := by
    rw [ihpre self hself3 hsne, hE3self]
  have hci2 : (nd'.node self).child k = ndk.nodes.length := by
    rw [hndself, child_setChild, if_pos rfl]
  have hnew_pos : 0 < ndk.nodes.length := by omega
  have hnparent : (nd'.node ndk.nodes.length).parentIndex = self := by
    rw [ihpar, hE3new]
  have hrdE3 : ∀ x, ndE3.rd x = nd.rd x := by
    intro x
    simp only [FNodeData.rd, hE3rd]
  have hm' : (nd'.node ndk.nodes.length).hasMaterial =
      (nd.rd qIdx).material.isSome := by
    rw [ihm, hrdE3]
  simp only [FNode.addNodesStep]
  rw [hci]
  rw [if_neg (lt_irrefl 0)]
  rw [← hcB]
  rw [hint1, hint2]
  simp only [Bool.and_self, if_true]
  rw [← hndE, ← hndE2, ← hndE3, ← hnd']
  rw [hci2]
  rw [if_pos hnew_pos]
  have hgen : ((nd'.node ndk.nodes.length).isSubtreeSameQuadMesh == false
      || !((nd'.node ndk.nodes.length).canMerge
        (if prevk.parentIndex == INVALID_PARENT then nd'.node ndk.nodes.length
         else prevk))) = false := by
    rw [ihs]
    have hcm : (nd'.node ndk.nodes.length).canMerge
        (if prevk.parentIndex == INVALID_PARENT then nd'.node ndk.nodes.length
         else prevk) = true := by
      by_cases hbe : (prevk.parentIndex == INVALID_PARENT) = true
      · rw [if_pos hbe]
        simp [FNode.canMerge]
      · rw [if_neg hbe]
        rcases hprev with hl | ⟨hq2, hm2⟩
        · exact absurd (by rw [hl]; exact beq_self_eq_true _) hbe
        · simp [FNode.canMerge, ihq, hq2, hm', hm2]
    rw [hcm]
    rfl
  simp only [hgen, Bool.false_eq_true, if_false]
  have hcond2 : ((nd'.node ndk.nodes.length).hasCompleteSubtree == false) = false := by
    rw [ihc]
    rfl
  simp only [hcond2, Bool.false_eq_true, if_false]
  show CoveredInv quadB qIdx nd self (nd'.setNode self (nd'.node self))
    (nd'.node ndk.nodes.length) (fun q => if q = k then true else done q)
  have hselfn : self < nd'.nodes.length := by omega
  set vfin : FNode := nd'.node self with hvfin
  set final : FNodeData := nd'.setNode self vfin with hfin
  have hlenfin : final.nodes.length = nd'.nodes.length := by
    rw [hfin]
    exact length_setNode _ _ _
  have hnodefin : ∀ j, final.node j = nd'.node j := by
    intro j
    by_cases hj : j = self
    · rw [hj, hfin, node_setNode_self _ _ _ hselfn, hvfin]
    · rw [hfin]
      exact node_setNode_ne _ _ _ _ hj
  have hchain : ∀ j, j < ndk.nodes.length → j ≠ self →
      final.node j = ndk.node j := by
    intro j hj hjs
    rw [hnodefin j, ihpre j (by omega) (by omega), hE3other j hj hjs]
  have hselfflags :
      (final.node self).hasCompleteSubtree = true ∧
      (final.node self).isSubtreeSameQuadMesh = true := by
    rw [hnodefin self, ← hvfin, hndself]
    exact ⟨by rw [(setChild_fields _ _ _).2.2.2.2.2.2]; exact hcomp,
           by rw [(setChild_fields _ _ _).2.2.2.2.2.1]; exact hsame⟩
  refine ⟨?_, ?_, ?_, ?_, ?_, ?_, ?_, ?_, hselfflags.1, hselfflags.2, ?_, ?_,
    ?_, ?_, ?_, ?_⟩
  · rw [hlenfin]
    omega
  · rw [rd_setNode, ihrd, hE3rd]
  · intro j hj hjs
    rw [hchain j (by omega) hjs]
    exact hpre j hj hjs
  · rw [hnodefin self, ← hvfin, hndself, (setChild_fields _ _ _).2.1]
    exact hpar
  · rw [hnodefin self, ← hvfin, hndself, (setChild_fields _ _ _).1]
    exact hlox
  · rw [hnodefin self, ← hvfin, hndself, (setChild_fields _ _ _).1]
    exact hloy
  · rw [hnodefin self, ← hvfin, hndself, (setChild_fields _ _ _).1]
    exact hhix
  · rw [hnodefin self, ← hvfin, hndself, (setChild_fields _ _ _).1]
    exact hhiy
  · rw [hnodefin self, ← hvfin, hndself, (setChild_fields _ _ _).2.2.1]
    exact hqidx
  · rw [hnodefin self, ← hvfin, hndself, (setChild_fields _ _ _).2.2.2.2.1]
    exact hhm
  · -- slot_empty
    intro q hq
    by_cases hqk : q = k
    · rw [hqk] at hq
      simp at hq
    · have hdq : done q = false := by
        simpa [hqk] using hq
      rw [hnodefin self, ← hvfin, hndself, child_setChild, if_neg hqk]
      exact hempty q hdq
  · -- slot_done
    intro q hq
    by_cases hqk : q = k
    · rw [hqk]
      rw [hnodefin self, ← hvfin, hndself, child_setChild, if_pos rfl]
      refine ⟨hnew_pos, hLk, by rw [hlenfin]; omega, ?_, ?_, ?_, ?_⟩
      · rw [hnodefin]; exact ihc
      · rw [hnodefin]; exact ihs
      · rw [hnodefin]; exact ihq
      · rw [hnodefin]; exact hm'
    · have hdq : done q = true := by
        simpa [hqk] using hq
      obtain ⟨p1, p2, p3, p4, p5, p6, p7⟩ := hdonep q hdq
      rw [hnodefin self, ← hvfin, hndself, child_setChild, if_neg hqk]
      have hcs : (ndk.node self).child q ≠ self := by omega
      refine ⟨p1, p2, by rw [hlenfin]; omega, ?_, ?_, ?_, ?_⟩ <;>
        rw [hchain _ p3 hcs]
      · exact p4
      · exact p5
      · exact p6
      · exact p7
  · -- new_parent_flags
    intro j hj hjlen
    rw [hlenfin] at hjlen
    have hjs : j ≠ self := by omega
    rcases Nat.lt_trichotomy j ndk.nodes.length with hcase | hcase | hcase
    · rw [hchain j hcase hjs]
      obtain ⟨f1, f2⟩ := hnewpf j hj hcase
      have hplen : (ndk.node j).parentIndex < ndk.nodes.length :=
        lt_length_of_complete ndk _ f1
      by_cases hps : (ndk.node j).parentIndex = self
      · rw [hps]
        exact hselfflags
      · rw [hchain _ hplen hps]
        exact ⟨f1, f2⟩
    · rw [hnodefin j, hcase, hnparent]
      exact hselfflags
    · obtain ⟨g1, g2⟩ := ihnewpf j (by omega) (by omega)
      rw [hnodefin j]
      have hplen' : (nd'.node j).parentIndex < nd'.nodes.length :=
        lt_length_of_complete nd' _ g1
      by_cases hps : (nd'.node j).parentIndex = self
      · rw [hps]
        exact hselfflags
      · rw [hnodefin _]
        exact ⟨g1, g2⟩
  · -- prev_ok
    exact Or.inr ⟨ihq, hm'⟩

/-- A covered `AddNodes` call (region and mesh bounds both containing the
node's XY box, node without children) satisfies `AddNodesCoveredSpec` at
every level. -/
theorem addNodes_covered (meshB quadB : FBox) (qIdx : Nat) :
    ∀ lvl : Nat, AddNodesCoveredSpec meshB quadB qIdx lvl := by
  intro lvl
  induction lvl with
  | zero =>
    intro nd self hself hc0 hc1 hc2 hc3 hq hm hlx hly hroot
    have heq : FNode.addNodes meshB quadB qIdx 0 nd self self =
        nd.setNode self { nd.node self with
          bounds := { (nd.node self).bounds with
            hi := { (nd.node self).bounds.hi with
              z := max (nd.node self).bounds.hi.z quadB.hi.z }
            lo := { (nd.node self).bounds.lo with
              z := min (nd.node self).bounds.lo.z quadB.lo.z } }
          transitionQuadMeshIndex := qIdx % 65536
          quadMeshIndex := qIdx
          hasMaterial := (nd.rd qIdx).material.isSome
          isSubtreeSameQuadMesh := true
          hasCompleteSubtree := true } := rfl
    rw [heq]
    refine ⟨le_of_eq (length_setNode _ _ _).symm, rd_setNode _ _ _,
      fun j _ hjs => node_setNode_ne _ _ _ _ hjs, ?_, ?_, ?_, ?_, ?_, ?_, ?_,
      ?_, ?_, ?_⟩
    · rw [node_setNode_self _ _ _ hself]
    · rw [node_setNode_self _ _ _ hself]
    · rw [node_setNode_self _ _ _ hself]
    · rw [node_setNode_self _ _ _ hself]
    · rw [node_setNode_self _ _ _ hself]
    · rw [node_setNode_self _ _ _ hself]
    · rw [node_setNode_self _ _ _ hself]
    · rw [node_setNode_self _ _ _ hself]
    · rw [node_setNode_self _ _ _ hself]
    · intro j hj hjlen
      rw [length_setNode] at hjlen
      exact absurd (lt_of_le_of_lt hj hjlen) (lt_irrefl _)
  | succ lvl' ih =>
    intro nd self hself hc0 hc1 hc2 hc3 hq hm hlx hly hroot
    set n1 : FNode := ({ nd.node self with
      bounds := { (nd.node self).bounds with
        hi := { (nd.node self).bounds.hi with
          z := max (nd.node self).bounds.hi.z quadB.hi.z }
        lo := { (nd.node self).bounds.lo with
          z := min (nd.node self).bounds.lo.z quadB.lo.z } }
      transitionQuadMeshIndex := qIdx % 65536
      quadMeshIndex := qIdx
      hasMaterial := (nd.rd qIdx).material.isSome
      isSubtreeSameQuadMesh := true
      hasCompleteSubtree := true } : FNode) with hn1
    set nd1 : FNodeData := nd.setNode self n1 with hnd1
    set hx : Rat := ((nd.node self).bounds.hi.x - (nd.node self).bounds.lo.x) / 2
      with hhx
    set hy : Rat := ((nd.node self).bounds.hi.y - (nd.node self).bounds.lo.y) / 2
      with hhy
    have inv0 : CoveredInv quadB qIdx nd self nd1 (nd1.node 0)
        (fun _ => false) := by
      refine ⟨le_of_eq (by rw [hnd1, length_setNode]),
        by rw [hnd1, rd_setNode],
        fun j _ hjs => by rw [hnd1]; exact node_setNode_ne _ _ _ _ hjs,
        ?_, ?_, ?_, ?_, ?_, ?_, ?_, ?_, ?_, ?_, ?_, ?_, ?_⟩
      · rw [hnd1, node_setNode_self _ _ _ hself, hn1]
      · rw [hnd1, node_setNode_self _ _ _ hself, hn1]
      · rw [hnd1, node_setNode_self _ _ _ hself, hn1]
      · rw [hnd1, node_setNode_self _ _ _ hself, hn1]
      · rw [hnd1, node_setNode_self _ _ _ hself, hn1]
      · rw [hnd1, node_setNode_self _ _ _ hself, hn1]
      · rw [hnd1, node_setNode_self _ _ _ hself, hn1]
      · rw [hnd1, node_setNode_self _ _ _ hself, hn1]
      · rw [hnd1, node_setNode_self _ _ _ hself, hn1]
      · intro q _
        rw [hnd1, node_setNode_self _ _ _ hself, hn1]
        fin_cases q
        · exact hc0
        · exact hc1
        · exact hc2
        · exact hc3
      · intro q hq
        exact (Bool.false_ne_true hq).elim
      · intro j hj hjlen
        rw [hnd1, length_setNode] at hjlen
        exact absurd (lt_of_le_of_lt hj hjlen) (lt_irrefl _)
      · by_cases h0 : self = 0
        · refine Or.inl ?_
          rw [hnd1, ← h0, node_setNode_self _ _ _ hself, hn1]
          rw [h0]
          exact hroot
        · refine Or.inl ?_
          rw [hnd1, node_setNode_ne _ _ _ _ (Ne.symm h0)]
          exact hroot
    have s0 := covered_step meshB quadB qIdx lvl' ih nd self hself hq hm hlx hly
      hroot hx hy hhx hhy nd1 (nd1.node 0) (fun _ => false) 0 rfl inv0
    set q1 : FNodeData := (FNode.addNodesStep
      (fun a b c => FNode.addNodes meshB quadB qIdx lvl' a b c)
      meshB quadB self self hx hy (nd1, nd1.node 0) 0).1 with hq1
    set r1 : FNode := (FNode.addNodesStep
      (fun a b c => FNode.addNodes meshB quadB qIdx lvl' a b c)
      meshB quadB self self hx hy (nd1, nd1.node 0) 0).2 with hr1
    have hpair1 : (q1, r1) = FNode.addNodesStep
        (fun a b c => FNode.addNodes meshB quadB qIdx lvl' a b c)
        meshB quadB self self hx hy (nd1, nd1.node 0) 0 := by
      rw [hq1, hr1]
    have s1 := covered_step meshB quadB qIdx lvl' ih nd self hself hq hm hlx hly
      hroot hx hy hhx hhy q1 r1 _ 1 (by decide) s0
    set q2 : FNodeData := (FNode.addNodesStep
      (fun a b c => FNode.addNodes meshB quadB qIdx lvl' a b c)
      meshB quadB self self hx hy (q1, r1) 1).1 with hq2
    set r2 : FNode := (FNode.addNodesStep
      (fun a b c => FNode.addNodes meshB quadB qIdx lvl' a b c)
      meshB quadB self self hx hy (q1, r1) 1).2 with hr2
    have hpair2 : (q2, r2) = FNode.addNodesStep
        (fun a b c => FNode.addNodes meshB quadB qIdx lvl' a b c)
        meshB quadB self self hx hy (q1, r1) 1 := by
      rw [hq2, hr2]
    have s2 := covered_step meshB quadB qIdx lvl' ih nd self hself hq hm hlx hly
      hroot hx hy hhx hhy q2 r2 _ 2 (by decide) s1
    set q3 : FNodeData := (FNode.addNodesStep
      (fun a b c => FNode.addNodes meshB quadB qIdx lvl' a b c)
      meshB quadB self self hx hy (q2, r2) 2).1 with hq3
    set r3 : FNode := (FNode.addNodesStep
      (fun a b c => FNode.addNodes meshB quadB qIdx lvl' a b c)
      meshB quadB self self hx hy (q2, r2) 2).2 with hr3
    have hpair3 : (q3, r3) = FNode.addNodesStep
        (fun a b c => FNode.addNodes meshB quadB qIdx lvl' a b c)
        meshB quadB self self hx hy (q2, r2) 2 := by
      rw [hq3, hr3]
    have s3 := covered_step meshB quadB qIdx lvl' ih nd self hself hq hm hlx hly
      hroot hx hy hhx hhy q3 r3 _ 3 (by decide) s2
    obtain ⟨m1, m2, m3, m4, m5, m6, m7, m8, m9, m10, m11, m12, m13, m14, m15,
      m16⟩ := s3
    have hunf2 : FNode.addNodes meshB quadB qIdx (lvl' + 1) nd self self =
        (FNode.addNodesStep
          (fun a b c => FNode.addNodes meshB quadB qIdx lvl' a b c)
          meshB quadB self self hx hy (q3, r3) 3).1 := by
      rw [hpair3, hpair2, hpair1]
      conv_lhs => rw [FNode.addNodes]
      simp only [List.foldl]
    rw [hunf2]
    exact ⟨m1, m2, m3, m9, m10, m11, m12, m4, m5, m6, m7, m8, m15⟩

/-- Reading back a raw arena write in range. -/
theorem getD_set_self (l : List FNode) (i : Nat) (a : FNode)
    (h : i < l.length) : (l.set i a).getD i FNode.defaultNode = a := by
  simp [List.getD_eq_getElem?_getD, List.getElem?_set_self h]

/-- Reading another slot of a raw arena write. -/
theorem getD_set_ne (l : List FNode) (i j : Nat) (a : FNode) (h : j ≠ i) :
    (l.set i a).getD j FNode.defaultNode = l.getD j FNode.defaultNode := by
  simp [List.getD_eq_getElem?_getD, List.getElem?_set_ne (Ne.symm h)]

/-- An out-of-range raw arena read gives the default node. -/
theorem getD_out_of_range (l : List FNode) (j : Nat) (h : l.length ≤ j) :
    l.getD j FNode.defaultNode = FNode.defaultNode := by
  simp [List.getD_eq_getElem?_getD, List.getElem?_eq_none h]

/-- A raw slot carrying the completeness flag lies inside the arena. -/
theorem getD_lt_length_of_complete (l : List FNode) (p : Nat)
    (h : (l.getD p FNode.defaultNode).hasCompleteSubtree = true) :
    p < l.length := by
  by_contra hge
  rw [getD_out_of_range l p (by omega)] at h
  exact absurd h (by decide)

/-- `SwapRemove` at the end slot itself is the identity (the C++ lambda's
`NodeIndex != EndIndex` guard). -/
theorem pruneSwapRemove_self (l : List FNode) (k : Nat) :
    pruneSwapRemove l k k = l := by
  simp [pruneSwapRemove]

/-- When every non-root node's parent carries both summary flags, every
iteration of the pruning loop takes the merge branch and removes its node in
place (`NodeIndex = EndIndex`, so `SwapRemove` never swaps): the loop drives
`EndIndex` down to `0` and keeps the arena length. -/
theorem pruneLoop_all (m : Nat) : ∀ nodes : List FNode,
    m < nodes.length →
    (∀ j, 1 ≤ j → j < nodes.length →
      (nodes.getD (nodes.getD j FNode.defaultNode).parentIndex
        FNode.defaultNode).hasCompleteSubtree = true ∧
      (nodes.getD (nodes.getD j FNode.defaultNode).parentIndex
        FNode.defaultNode).isSubtreeSameQuadMesh = true) →
    (pruneLoop m nodes m).2 = 0 ∧
    (pruneLoop m nodes m).1.length = nodes.length ∧
    (∀ j, ((pruneLoop m nodes m).1.getD j FNode.defaultNode).hasCompleteSubtree
        = (nodes.getD j FNode.defaultNode).hasCompleteSubtree ∧
      ((pruneLoop m nodes m).1.getD j FNode.defaultNode).isSubtreeSameQuadMesh
        = (nodes.getD j FNode.defaultNode).isSubtreeSameQuadMesh ∧
      ((pruneLoop m nodes m).1.getD j FNode.defaultNode).quadMeshIndex
        = (nodes.getD j FNode.defaultNode).quadMeshIndex) := by
  induction m with
  | zero => intro nodes _ _; exact ⟨rfl, rfl, fun j => ⟨rfl, rfl, rfl⟩⟩
  | succ ni ihm =>
    intro nodes hm hinv
    obtain ⟨hc, hs⟩ := hinv (ni + 1) (by omega) hm
    have hplt : (nodes.getD (ni + 1) FNode.defaultNode).parentIndex <
        nodes.length := getD_lt_length_of_complete nodes _ hc
    have hstep : pruneLoop (ni + 1) nodes (ni + 1) =
        pruneLoop ni
          (nodes.set (nodes.getD (ni + 1) FNode.defaultNode).parentIndex
            { nodes.getD (nodes.getD (ni + 1) FNode.defaultNode).parentIndex
                FNode.defaultNode with
              children0 := 0, children1 := 0, children2 := 0,
              children3 := 0 }) ni := by
      simp only [pruneLoop]
      rw [hc, hs]
      simp [pruneSwapRemove_self]
    set nodes1 : List FNode :=
      nodes.set (nodes.getD (ni + 1) FNode.defaultNode).parentIndex
        { nodes.getD (nodes.getD (ni + 1) FNode.defaultNode).parentIndex
            FNode.defaultNode with
          children0 := 0, children1 := 0, children2 := 0, children3 := 0 }
      with hnodes1
    have hlen1 : nodes1.length = nodes.length := by
      rw [hnodes1]; exact List.length_set _ _ _
    have hsame : ∀ j,
        (nodes1.getD j FNode.defaultNode).parentIndex =
          (nodes.getD j FNode.defaultNode).parentIndex ∧
        (nodes1.getD j FNode.defaultNode).hasCompleteSubtree =
          (nodes.getD j FNode.defaultNode).hasCompleteSubtree ∧
        (nodes1.getD j FNode.defaultNode).isSubtreeSameQuadMesh =
          (nodes.getD j FNode.defaultNode).isSubtreeSameQuadMesh ∧
        (nodes1.getD j FNode.defaultNode).quadMeshIndex =
          (nodes.getD j FNode.defaultNode).quadMeshIndex := by
      intro j
      by_cases hj : j = (nodes.getD (ni + 1) FNode.defaultNode).parentIndex
      · rw [hnodes1, hj, getD_set_self _ _ _ hplt]
        exact ⟨rfl, rfl, rfl, rfl⟩
      · rw [hnodes1, getD_set_ne _ _ _ _ hj]
        exact ⟨rfl, rfl, rfl, rfl⟩
    have hinv1 : ∀ j, 1 ≤ j → j < nodes1.length →
        (nodes1.getD (nodes1.getD j FNode.defaultNode).parentIndex
          FNode.defaultNode).hasCompleteSubtree = true ∧
        (nodes1.getD (nodes1.getD j FNode.defaultNode).parentIndex
          FNode.defaultNode).isSubtreeSameQuadMesh = true := by
      intro j h1 h2
      rw [hlen1] at h2
      obtain ⟨hp, -, -, -⟩ := hsame j
      obtain ⟨-, hfc, hfs, -⟩ :=
        hsame ((nodes.getD j FNode.defaultNode).parentIndex)
      rw [hp, hfc, hfs]
      exact hinv j h1 h2
    have hres := ihm nodes1 (by omega) hinv1
    rw [hstep]
    refine ⟨hres.1, by rw [hres.2.1, hlen1], ?_⟩
    intro j
    obtain ⟨hg1, hg2, hg3⟩ := hres.2.2 j
    obtain ⟨-, hh1, hh2, hh3⟩ := hsame j
    exact ⟨hg1.trans hh1, hg2.trans hh2, hg3.trans hh3⟩

/-- C5: the frozen claim ("exactly one region inserted after Initialize and
`Lock(true)` leaves exactly one node") fails when the region covers only part
of the root tile — see `singleInsertion_counterexample`.  Amended claim: when
the single inserted region's footprint contains the root tile's XY box (and
the root tile lies inside the mesh bounds), every quadrant is populated as a
complete identity-uniform subtree, so `Unlock(true)` prunes the arena down to
exactly the root node. -/
theorem singleCoveringInsertion_collapses_to_root (t : FMeshQuadTree)
    (region : FBox) (qIdx : Nat)
    (hlen : t.nodeData.nodes.length = 1)
    (hc0 : (t.nodeData.node 0).children0 = 0)
    (hc1 : (t.nodeData.node 0).children1 = 0)
    (hc2 : (t.nodeData.node 0).children2 = 0)
    (hc3 : (t.nodeData.node 0).children3 = 0)
    (hroot : (t.nodeData.node 0).parentIndex = INVALID_PARENT)
    (hq : (t.nodeData.node 0).bounds.xyContainedIn region)
    (hme : (t.nodeData.node 0).bounds.xyContainedIn
      ⟨⟨t.tileRegion.lo.x, t.tileRegion.lo.y, 0⟩,
       ⟨t.tileRegion.hi.x, t.tileRegion.hi.y, 0⟩, true⟩)
    (hlx : (t.nodeData.node 0).bounds.lo.x ≤ (t.nodeData.node 0).bounds.hi.x)
    (hly : (t.nodeData.node 0).bounds.lo.y ≤ (t.nodeData.node 0).bounds.hi.y) :
    ((t.addQuadMeshTilesInsideBounds region qIdx).unlock
        true).nodeData.nodes.length = 1 := by
  have hspec := addNodes_covered
    ⟨⟨t.tileRegion.lo.x, t.tileRegion.lo.y, 0⟩,
     ⟨t.tileRegion.hi.x, t.tileRegion.hi.y, 0⟩, true⟩ region qIdx t.treeDepth
    t.nodeData 0 (by omega) hc0 hc1 hc2 hc3 hq hme hlx hly hroot
  set nd' : FNodeData := FNode.addNodes
    ⟨⟨t.tileRegion.lo.x, t.tileRegion.lo.y, 0⟩,
     ⟨t.tileRegion.hi.x, t.tileRegion.hi.y, 0⟩, true⟩ region qIdx t.treeDepth
    t.nodeData 0 0 with hnd'
  obtain ⟨hmono, -, -, -, -, -, -, -, -, -, -, -, hpf⟩ := hspec
  have h1 : 1 ≤ nd'.nodes.length := hlen ▸ hmono
  have hinvraw : ∀ j, 1 ≤ j → j < nd'.nodes.length →
      (nd'.nodes.getD (nd'.nodes.getD j FNode.defaultNode).parentIndex
        FNode.defaultNode).hasCompleteSubtree = true ∧
      (nd'.nodes.getD (nd'.nodes.getD j FNode.defaultNode).parentIndex
        FNode.defaultNode).isSubtreeSameQuadMesh = true := by
    intro j hj1 hj2
    exact hpf j (by omega) hj2
  have hall := pruneLoop_all (nd'.nodes.length - 1) nd'.nodes (by omega) hinvraw
  have hgoal : ((t.addQuadMeshTilesInsideBounds region qIdx).unlock
        true).nodeData.nodes =
      (pruneLoop (nd'.nodes.length - 1) nd'.nodes
          (nd'.nodes.length - 1)).1.take
        ((pruneLoop (nd'.nodes.length - 1) nd'.nodes
            (nd'.nodes.length - 1)).2 + 1) := rfl
  rw [hgoal, hall.1, List.length_take, hall.2.1]
  omega

/-- Witness for `singleCoveringInsertion_collapses_to_root`: the 2x2 tree on
`[0,64]x[0,64]` with a material-bearing render-data record at index 1, a
region covering the whole root tile inserted once, then `Unlock(true)`. -/
theorem singleCoveringInsertion_collapses_to_root_witness :
    (tinyTreeRD.nodeData.nodes.length = 1 ∧
     (tinyTreeRD.nodeData.node 0).bounds.xyContainedIn
       ⟨⟨0, 0, 0⟩, ⟨64, 64, 5⟩, true⟩) ∧
    ((tinyTreeRD.addQuadMeshTilesInsideBounds ⟨⟨0, 0, 0⟩, ⟨64, 64, 5⟩, true⟩
        1).unlock true).nodeData.nodes.length = 1 :=
  ⟨⟨by with_unfolding_all decide,
    by refine ⟨?_, ?_, ?_, ?_⟩ <;> with_unfolding_all decide⟩,
   singleCoveringInsertion_collapses_to_root tinyTreeRD
     ⟨⟨0, 0, 0⟩, ⟨64, 64, 5⟩, true⟩ 1 (by with_unfolding_all decide)
     (by with_unfolding_all decide) (by with_unfolding_all decide)
     (by with_unfolding_all decide) (by with_unfolding_all decide)
     (by with_unfolding_all decide)
     (by refine ⟨?_, ?_, ?_, ?_⟩ <;> with_unfolding_all decide)
     (by refine ⟨?_, ?_, ?_, ?_⟩ <;> with_unfolding_all decide)
     (by with_unfolding_all decide) (by with_unfolding_all decide)⟩

/-- C5 counterexample: on the `[0,64]x[0,64]` tree, a single `AddQuadMesh`
of a region covering only the lower-left quarter leaves two nodes after
`Unlock(true)`, refuting "exactly one node" for an arbitrary single region. -/
theorem singleInsertion_counterexample :
    ((tinyTreeRD.addQuadMesh [] ⟨⟨0, 0, 0⟩, ⟨16, 16, 5⟩, true⟩ 1).unlock
        true).nodeData.nodes.length = 2 ∧
    ((tinyTreeRD.addQuadMesh [] ⟨⟨0, 0, 0⟩, ⟨16, 16, 5⟩, true⟩ 1).unlock
        true).nodeData.nodes.length ≠ 1 := by
  constructor
  · with_unfolding_all decide
  · with_unfolding_all decide

/-- `followFrom` only looks at child pointers: arenas with pointwise-equal
child slots follow paths identically. -/
theorem followFrom_congr (nd nd' : FNodeData)
    (hch : ∀ x, ∀ q : Fin 4, (nd'.node x).child q = (nd.node x).child q) :
    ∀ (p : List (Fin 4)) (x : Nat), nd'.followFrom x p = nd.followFrom x p := by
  intro p
  induction p with
  | nil => intro x; rfl
  | cons q rest ihp =>
    intro x
    rw [FNodeData.followFrom, FNodeData.followFrom, hch x q]
    by_cases h0 : (nd.node x).child q = 0
    · rw [if_pos h0, if_pos h0]
    · rw [if_neg h0, if_neg h0, ihp]

/-- Arena structure only depends on lengths and child slots. -/
theorem arenaShape_congr (nd nd' : FNodeData) (d : Nat) (lvlF : Nat → Nat)
    (hlen : nd'.nodes.length = nd.nodes.length)
    (hch : ∀ x, ∀ q : Fin 4, (nd'.node x).child q = (nd.node x).child q)
    (h : ArenaShape nd d lvlF) : ArenaShape nd' d lvlF := by
  obtain ⟨hpos, hroot, hgt, hlvl, hreach⟩ := h
  refine ⟨by omega, hroot, ?_, ?_, ?_⟩
  · intro i hi q hq
    rw [hch i q] at hq ⊢
    have := hgt i (by omega) q hq
    omega
  · intro i hi q hq
    rw [hch i q] at hq ⊢
    exact hlvl i (by omega) q hq
  · intro j hj hjlen
    obtain ⟨pth, hpth⟩ := hreach j hj (by omega)
    exact ⟨pth, by rw [followFrom_congr nd nd' hch]; exact hpth⟩

/-- A successful path stays successful in any `ChildExt`-larger arena, as long
as the source arena keeps its child pointers in range. -/
theorem followFrom_mono (nd nd' : FNodeData)
    (hext : ∀ x, x < nd.nodes.length → ∀ q : Fin 4, (nd.node x).child q ≠ 0 →
      (nd'.node x).child q = (nd.node x).child q)
    (hgt : ∀ x, x < nd.nodes.length → ∀ q : Fin 4, (nd.node x).child q ≠ 0 →
      (nd.node x).child q < nd.nodes.length) :
    ∀ (p : List (Fin 4)) (x : Nat), x < nd.nodes.length →
      ∀ j, nd.followFrom x p = some j → nd'.followFrom x p = some j := by
  intro p
  induction p with
  | nil => intro x _ j h; exact h
  | cons q rest ihp =>
    intro x hx j h
    rw [FNodeData.followFrom] at h
    by_cases h0 : (nd.node x).child q = 0
    · rw [if_pos h0] at h; exact absurd h (by simp)
    · rw [if_neg h0] at h
      rw [FNodeData.followFrom, hext x hx q h0, if_neg h0]
      exact ihp ((nd.node x).child q) (hgt x hx q h0) j h

/-- Following a concatenated path composes. -/
theorem followFrom_append (nd : FNodeData) :
    ∀ (p p' : List (Fin 4)) (x j : Nat), nd.followFrom x p = some j →
      nd.followFrom x (p ++ p') = nd.followFrom j p' := by
  intro p
  induction p with
  | nil =>
    intro p' x j h
    rw [FNodeData.followFrom] at h
    cases h
    rfl
  | cons q rest ihp =>
    intro p' x j h
    rw [FNodeData.followFrom] at h
    by_cases h0 : (nd.node x).child q = 0
    · rw [if_pos h0] at h; exact absurd h (by simp)
    · rw [if_neg h0] at h
      rw [List.cons_append, FNodeData.followFrom, if_neg h0]
      exact ihp p' ((nd.node x).child q) j h

/-- Along a successful path, the level assignment of a shaped arena drops by
one per step: the end's level plus the path length is the start's level. -/
theorem followFrom_level (nd : FNodeData) (d : Nat) (lvlF : Nat → Nat)
    (h : ArenaShape nd d lvlF) :
    ∀ (p : List (Fin 4)) (x : Nat), x < nd.nodes.length →
      ∀ j, nd.followFrom x p = some j →
        lvlF j + p.length = lvlF x ∧ j < nd.nodes.length := by
  intro p
  induction p with
  | nil =>
    intro x hx j hj
    rw [FNodeData.followFrom] at hj
    cases hj
    exact ⟨rfl, hx⟩
  | cons q rest ihp =>
    intro x hx j hj
    rw [FNodeData.followFrom] at hj
    by_cases h0 : (nd.node x).child q = 0
    · rw [if_pos h0] at hj; exact absurd hj (by simp)
    · rw [if_neg h0] at hj
      have hin := (h.child_gt x hx q h0).2
      have hstep := h.child_level x hx q h0
      obtain ⟨ih1, ih2⟩ := ihp ((nd.node x).child q) hin j hj
      constructor
      · simp only [List.length_cons]
        omega
      · exact ih2

/-- A shaped arena of root level `d` holds at most as many nodes as the full
depth-`d` quadtree: every node is reached by a distinct root path of length at
most `d`. -/
theorem arenaShape_length_le (nd : FNodeData) (d : Nat) (lvlF : Nat → Nat)
    (h : ArenaShape nd d lvlF) :
    nd.nodes.length ≤ ∑ k ∈ Finset.range (d + 1), 4 ^ k := by
  have hpath : ∀ j : Fin nd.nodes.length,
      ∃ p : List (Fin 4), nd.followFrom 0 p = some j.1 ∧ p.length ≤ d := by
    intro j
    by_cases hj0 : j.1 = 0
    · exact ⟨[], by rw [FNodeData.followFrom, hj0], by simp⟩
    · obtain ⟨p, hp⟩ := h.reach j.1 (by omega) j.2
      refine ⟨p, hp, ?_⟩
      have hlev := (followFrom_level nd d lvlF h p 0 h.len_pos j.1 hp).1
      have hr := h.root_level
      omega
  choose pf hpf hplen using hpath
  have hinj : Function.Injective
      (fun j : Fin nd.nodes.length =>
        (⟨⟨(pf j).length, by have := hplen j; omega⟩, (pf j).get⟩ :
          Σ k : Fin (d + 1), Fin k.1 → Fin 4)) := by
    intro a b hab
    obtain ⟨hfin, hheq⟩ := Sigma.mk.inj_iff.mp hab
    have hleq : (pf a).length = (pf b).length := congrArg Fin.val hfin
    have hget := (Fin.heq_fun_iff hleq).mp hheq
    have hlists : pf a = pf b := List.ext_get hleq (fun n h1 h2 => hget ⟨n, h1⟩)
    have hae := hpf a
    rw [hlists, hpf b] at hae
    exact Fin.ext (Option.some.inj hae).symm
  have hcard := Fintype.card_le_of_injective _ hinj
  rw [Fintype.card_fin, Fintype.card_sigma] at hcard
  simp only [Fintype.card_fun, Fintype.card_fin] at hcard
  rw [Fin.sum_univ_eq_sum_range (fun k => 4 ^ k) (d + 1)] at hcard
  exact hcard

/-- Structural decomposition of one quadrant step of `AddNodes`: whatever the
branch, the resulting arena is the branch's arena with only this node's flags
rewritten (children kept), and the branch either leaves the arena alone,
recurses into the existing child, or appends one fresh childless node wired
into the empty slot and recurses into it. -/
theorem addNodesStep_decomp (R : FNodeData → Nat → Nat → FNodeData)
    (meshB quadB : FBox) (self inParent : Nat) (hx hy : Rat)
    (ndk : FNodeData) (prevk : FNode) (i : Fin 4)
    (hself : self < ndk.nodes.length) :
    ∃ (nd2 : FNodeData) (X : FNode),
      (FNode.addNodesStep R meshB quadB self inParent hx hy (ndk, prevk) i).1 =
        nd2.setNode self X ∧
      (∀ q : Fin 4, X.child q = (nd2.node self).child q) ∧
      (nd2 = ndk ∨
       (0 < (ndk.node self).child i ∧
        nd2 = R ndk ((ndk.node self).child i) ((ndk.node self).child i)) ∨
       ((ndk.node self).child i = 0 ∧
        ∃ nd3 : FNodeData,
          nd2 = R nd3 ndk.nodes.length ndk.nodes.length ∧
          nd3.nodes.length = ndk.nodes.length + 1 ∧
          nd3.capacity = ndk.capacity ∧
          nd3.overflowed =
            (ndk.overflowed || !decide (ndk.nodes.length < ndk.capacity)) ∧
          nd3.node self = (ndk.node self).setChild i ndk.nodes.length ∧
          (∀ q : Fin 4, (nd3.node ndk.nodes.length).child q = 0) ∧
          (∀ j, j < ndk.nodes.length → j ≠ self →
            nd3.node j = ndk.node j))) := by
  simp only [FNode.addNodesStep]
  by_cases hci : 0 < (ndk.node self).child i
  · rw [if_pos hci]
    split
    · first
        | (split <;>
            exact ⟨_, _, rfl,
              (by intro q; fin_cases q <;> ((repeat' split) <;> rfl)),
              Or.inr (Or.inl ⟨hci, rfl⟩)⟩)
        | exact ⟨_, _, rfl,
            (by intro q; fin_cases q <;> ((repeat' split) <;> rfl)),
            Or.inr (Or.inl ⟨hci, rfl⟩)⟩
    · first
        | (split <;>
            exact ⟨_, _, rfl,
              (by intro q; fin_cases q <;> ((repeat' split) <;> rfl)),
              Or.inl rfl⟩)
        | exact ⟨_, _, rfl,
            (by intro q; fin_cases q <;> ((repeat' split) <;> rfl)),
            Or.inl rfl⟩
  · have hci0 : (ndk.node self).child i = 0 := by omega
    rw [hci0, if_neg (lt_irrefl 0)]
    split
    · first
        | (split <;>
            (refine ⟨_, _, rfl,
              (by intro q; fin_cases q <;> ((repeat' split) <;> rfl)),
              Or.inr (Or.inr ⟨rfl, _, rfl, ?_, rfl, rfl, ?_, ?_, ?_⟩)⟩))
        | (refine ⟨_, _, rfl,
            (by intro q; fin_cases q <;> ((repeat' split) <;> rfl)),
            Or.inr (Or.inr ⟨rfl, _, rfl, ?_, rfl, rfl, ?_, ?_, ?_⟩)⟩)
      all_goals first
        | (rw [length_setNode, length_setNode]; simp)
        | (rw [node_setNode_ne _ _ _ _ (by omega : self ≠ ndk.nodes.length),
            node_setNode_self _ _ _ (by simp; omega),
            node_append_lt ndk _ _ self hself])
        | (intro q;
           rw [node_setNode_self _ _ _ (by rw [length_setNode]; simp)];
           fin_cases q <;> rfl)
        | (intro j hj hjs;
           rw [node_setNode_ne _ _ _ _ (by omega : j ≠ ndk.nodes.length),
            node_setNode_ne _ _ _ _ hjs,
            node_append_lt ndk _ _ j hj])
    · first
        | (split <;>
            exact ⟨_, _, rfl,
              (by intro q; fin_cases q <;> ((repeat' split) <;> rfl)),
              Or.inl rfl⟩)
        | exact ⟨_, _, rfl,
            (by intro q; fin_cases q <;> ((repeat' split) <;> rfl)),
            Or.inl rfl⟩

/-- The build-phase arena order is transitive. -/
theorem childExt_trans (a b c : FNodeData) (h1 : ChildExt a b)
    (h2 : ChildExt b c) : ChildExt a c := by
  refine ⟨le_trans h1.1 h2.1, ?_⟩
  intro i hi q hq
  rw [h2.2 i (lt_of_lt_of_le hi h1.1) q (by rw [h1.2 i hi q hq]; exact hq),
    h1.2 i hi q hq]

/-- Rewriting one node's record without touching its child slots preserves
the arena's shape and the build order. -/
theorem shape_setNode_flags (nd2 : FNodeData) (s : Nat) (X : FNode) (d : Nat)
    (lvlF2 : Nat → Nat) (hs : s < nd2.nodes.length)
    (hX : ∀ q : Fin 4, X.child q = (nd2.node s).child q)
    (h : ArenaShape nd2 d lvlF2) :
    ArenaShape (nd2.setNode s X) d lvlF2 ∧ ChildExt nd2 (nd2.setNode s X) := by
  have hch : ∀ x, ∀ q : Fin 4,
      ((nd2.setNode s X).node x).child q = (nd2.node x).child q := by
    intro x q
    by_cases hxs : x = s
    · rw [hxs, node_setNode_self _ _ _ hs]
      exact hX q
    · rw [node_setNode_ne _ _ _ _ hxs]
  exact ⟨arenaShape_congr nd2 _ d lvlF2 (length_setNode _ _ _) hch h,
    ⟨le_of_eq (length_setNode _ _ _).symm, fun i' _ q _ => hch i' q⟩⟩

/-- One quadrant step of `AddNodes` preserves arena shape, the build order,
the capacity and the overflow flag, for a level assignment extending the
current one. -/
theorem shape_step (meshB quadB : FBox) (qIdx : Nat) (d lvl' : Nat)
    (IH : AddNodesShapeSpec meshB quadB qIdx d lvl')
    (self inParent : Nat) (hx hy : Rat) (i : Fin 4)
    (ndk : FNodeData) (prevk : FNode) (lvlF : Nat → Nat)
    (hshape : ArenaShape ndk d lvlF)
    (hself : self < ndk.nodes.length)
    (hlvl : lvlF self = lvl' + 1)
    (hcap : (∑ k ∈ Finset.range (d + 1), 4 ^ k) ≤ ndk.capacity) :
    ∃ lvlF' : Nat → Nat,
      (∀ j, j < ndk.nodes.length → lvlF' j = lvlF j) ∧
      ArenaShape ((FNode.addNodesStep
          (fun a b c => FNode.addNodes meshB quadB qIdx lvl' a b c)
          meshB quadB self inParent hx hy (ndk, prevk) i).1) d lvlF' ∧
      ChildExt ndk ((FNode.addNodesStep
          (fun a b c => FNode.addNodes meshB quadB qIdx lvl' a b c)
          meshB quadB self inParent hx hy (ndk, prevk) i).1) ∧
      ((FNode.addNodesStep
          (fun a b c => FNode.addNodes meshB quadB qIdx lvl' a b c)
          meshB quadB self inParent hx hy (ndk, prevk) i).1).capacity =
        ndk.capacity ∧
      ((FNode.addNodesStep
          (fun a b c => FNode.addNodes meshB quadB qIdx lvl' a b c)
          meshB quadB self inParent hx hy (ndk, prevk) i).1).overflowed =
        ndk.overflowed := by
  obtain ⟨nd2, X, hres, hXch, hbr⟩ := addNodesStep_decomp
    (fun a b c => FNode.addNodes meshB quadB qIdx lvl' a b c)
    meshB quadB self inParent hx hy ndk prevk i hself
  rw [hres]
  rcases hbr with h2 | ⟨hcipos, h2⟩ |
    ⟨hci0, nd3, h2, hlen3, hcap3, hovf3, hn3self, hn3new, hn3other⟩
  · rw [h2] at hXch ⊢
    obtain ⟨hsh', hcx'⟩ := shape_setNode_flags ndk self X d lvlF hself hXch hshape
    exact ⟨lvlF, fun j _ => rfl, hsh', hcx', rfl, rfl⟩
  · have hcne : (ndk.node self).child i ≠ 0 := by omega
    obtain ⟨hgt1, hlt1⟩ := hshape.child_gt self hself i hcne
    have hlvlc : lvlF ((ndk.node self).child i) = lvl' := by
      have := hshape.child_level self hself i hcne
      omega
    obtain ⟨lvlF2, hext2, hsh2, hcx2, hcap2, hovf2⟩ :=
      IH ndk ((ndk.node self).child i) ((ndk.node self).child i) lvlF hshape
        hlt1 hlvlc hcap
    rw [h2] at hXch ⊢
    have hs2 : self < (FNode.addNodes meshB quadB qIdx lvl' ndk
        ((ndk.node self).child i) ((ndk.node self).child i)).nodes.length :=
      lt_of_lt_of_le hself hcx2.1
    obtain ⟨hsh', hcx'⟩ := shape_setNode_flags _ self X d lvlF2 hs2 hXch hsh2
    exact ⟨lvlF2, hext2, hsh', childExt_trans _ _ _ hcx2 hcx', hcap2, hovf2⟩
  · rw [h2] at hXch ⊢
    have hL1 : 0 < ndk.nodes.length := lt_of_le_of_lt (Nat.zero_le self) hself
    have hextE : ∀ x, x < ndk.nodes.length → ∀ q : Fin 4,
        (ndk.node x).child q ≠ 0 → (nd3.node x).child q = (ndk.node x).child q := by
      intro x hxl q hq
      by_cases hxs : x = self
      · rw [hxs] at hq ⊢
        rw [hn3self, child_setChild]
        by_cases hqi : q = i
        · rw [hqi] at hq
          exact absurd hci0 hq
        · rw [if_neg hqi]
      · rw [hn3other x hxl hxs]
    have hgtk : ∀ x, x < ndk.nodes.length → ∀ q : Fin 4,
        (ndk.node x).child q ≠ 0 → (ndk.node x).child q < ndk.nodes.length :=
      fun x hx q hq => (hshape.child_gt x hx q hq).2
    have hsh3 : ArenaShape nd3 d
        (fun j => if j = ndk.nodes.length then lvl' else lvlF j) := by
      refine ⟨by omega, ?_, ?_, ?_, ?_⟩
      · rw [if_neg (by omega : ¬ (0 : Nat) = ndk.nodes.length)]
        exact hshape.root_level
      · intro x hxl q hq
        rw [hlen3] at hxl
        by_cases hxn : x = ndk.nodes.length
        · rw [hxn] at hq
          exact absurd (hn3new q) hq
        · have hxlt : x < ndk.nodes.length := by omega
          by_cases hxs : x = self
          · rw [hxs] at hq ⊢
            rw [hn3self, child_setChild] at hq ⊢
            by_cases hqi : q = i
            · rw [if_pos hqi] at hq ⊢
              omega
            · rw [if_neg hqi] at hq ⊢
              have := hshape.child_gt self hself q hq
              omega
          · rw [hn3other x hxlt hxs] at hq ⊢
            have := hshape.child_gt x hxlt q hq
            omega
      · intro x hxl q hq
        rw [hlen3] at hxl
        by_cases hxn : x = ndk.nodes.length
        · rw [hxn] at hq
          exact absurd (hn3new q) hq
        · have hxlt : x < ndk.nodes.length := by omega
          by_cases hxs : x = self
          · rw [hxs] at hq ⊢
            rw [hn3self, child_setChild] at hq ⊢
            by_cases hqi : q = i
            · rw [if_pos hqi] at hq ⊢
              rw [if_pos (rfl : ndk.nodes.length = ndk.nodes.length),
                if_neg (show ¬ self = ndk.nodes.length by omega)]
              omega
            · rw [if_neg hqi] at hq ⊢
              have hc := hshape.child_gt self hself q hq
              have hl := hshape.child_level self hself q hq
              rw [if_neg (show ¬ (ndk.node self).child q = ndk.nodes.length
                    by omega),
                if_neg (show ¬ self = ndk.nodes.length by omega)]
              exact hl
          · rw [hn3other x hxlt hxs] at hq ⊢
            have hc := hshape.child_gt x hxlt q hq
            have hl := hshape.child_level x hxlt q hq
            rw [if_neg (show ¬ (ndk.node x).child q = ndk.nodes.length
                  by omega),
              if_neg hxn]
            exact hl
      · intro j hj0 hjl
        rw [hlen3] at hjl
        by_cases hjn : j = ndk.nodes.length
        · obtain ⟨p, hp⟩ : ∃ p : List (Fin 4), ndk.followFrom 0 p = some self := by
            by_cases hs0 : self = 0
            · exact ⟨[], by rw [FNodeData.followFrom, hs0]⟩
            · exact hshape.reach self (by omega) hself
          have hp3 := followFrom_mono ndk nd3 hextE hgtk p 0 hL1 self hp
          refine ⟨p ++ [i], ?_⟩
          rw [followFrom_append nd3 p [i] 0 self hp3, FNodeData.followFrom]
          rw [hn3self, child_setChild, if_pos rfl]
          rw [if_neg (by omega : ¬ ndk.nodes.length = 0)]
          rw [hjn]
          rfl
        · have hjlt : j < ndk.nodes.length := by omega
          obtain ⟨p, hp⟩ := hshape.reach j hj0 hjlt
          exact ⟨p, followFrom_mono ndk nd3 hextE hgtk p 0 hL1 j hp⟩
    have hlvl1new : (fun j => if j = ndk.nodes.length then lvl' else lvlF j)
        ndk.nodes.length = lvl' := by
      simp
    obtain ⟨lvlF2, hext2, hsh2, hcx2, hcap2, hovf2⟩ :=
      IH nd3 ndk.nodes.length ndk.nodes.length _ hsh3 (by omega) hlvl1new
        (by rw [hcap3]; exact hcap)
    have hcount := arenaShape_length_le nd3 d _ hsh3
    have hlt : ndk.nodes.length < ndk.capacity := by omega
    have hs2 : self < (FNode.addNodes meshB quadB qIdx lvl' nd3
        ndk.nodes.length ndk.nodes.length).nodes.length := by
      have := hcx2.1
      omega
    obtain ⟨hsh', hcx'⟩ := shape_setNode_flags _ self X d lvlF2 hs2 hXch hsh2
    refine ⟨lvlF2, ?_, hsh', ?_, ?_, ?_⟩
    · intro j hjl
      rw [hext2 j (by omega)]
      simp only [if_neg (show ¬ j = ndk.nodes.length by omega)]
    · exact childExt_trans _ _ _
        (childExt_trans _ _ _ ⟨by omega, hextE⟩ hcx2) hcx'
    · exact hcap2.trans hcap3
    · refine hovf2.trans ?_
      rw [hovf3]
      simp [hlt]

/-- `AddNodes` satisfies the arena-structure specification at every level. -/
theorem addNodes_shape (meshB quadB : FBox) (qIdx : Nat) (d : Nat) :
    ∀ lvl : Nat, AddNodesShapeSpec meshB quadB qIdx d lvl := by
  intro lvl
  induction lvl with
  | zero =>
    intro nd self inParent lvlF hshape hself hlvl hcap
    have heq : FNode.addNodes meshB quadB qIdx 0 nd self inParent =
        nd.setNode self { nd.node self with
          bounds := { (nd.node self).bounds with
            hi := { (nd.node self).bounds.hi with
              z := max (nd.node self).bounds.hi.z quadB.hi.z }
            lo := { (nd.node self).bounds.lo with
              z := min (nd.node self).bounds.lo.z quadB.lo.z } }
          transitionQuadMeshIndex := qIdx % 65536
          quadMeshIndex := qIdx
          hasMaterial := (nd.rd qIdx).material.isSome
          isSubtreeSameQuadMesh := true
          hasCompleteSubtree := true } := rfl
    rw [heq]
    obtain ⟨hsh', hcx'⟩ := shape_setNode_flags nd self
      ({ nd.node self with
        bounds := { (nd.node self).bounds with
          hi := { (nd.node self).bounds.hi with
            z := max (nd.node self).bounds.hi.z quadB.hi.z }
          lo := { (nd.node self).bounds.lo with
            z := min (nd.node self).bounds.lo.z quadB.lo.z } }
        transitionQuadMeshIndex := qIdx % 65536
        quadMeshIndex := qIdx
        hasMaterial := (nd.rd qIdx).material.isSome
        isSubtreeSameQuadMesh := true
        hasCompleteSubtree := true } : FNode) d lvlF hself
      (fun q => by fin_cases q <;> rfl) hshape
    exact ⟨lvlF, fun j _ => rfl, hsh', hcx', rfl, rfl⟩
  | succ lvl' ih =>
    intro nd self inParent lvlF hshape hself hlvl hcap
    set n1 : FNode := ({ nd.node self with
      bounds := { (nd.node self).bounds with
        hi := { (nd.node self).bounds.hi with
          z := max (nd.node self).bounds.hi.z quadB.hi.z }
        lo := { (nd.node self).bounds.lo with
          z := min (nd.node self).bounds.lo.z quadB.lo.z } }
      transitionQuadMeshIndex := qIdx % 65536
      quadMeshIndex := qIdx
      hasMaterial := (nd.rd qIdx).material.isSome
      isSubtreeSameQuadMesh := true
      hasCompleteSubtree := true } : FNode) with hn1
    set nd1 : FNodeData := nd.setNode self n1 with hnd1
    set hx : Rat := (n1.bounds.hi.x - n1.bounds.lo.x) / 2 with hhx
    set hy : Rat := (n1.bounds.hi.y - n1.bounds.lo.y) / 2 with hhy
    obtain ⟨hsh1, hcx1⟩ := shape_setNode_flags nd self n1 d lvlF hself
      (fun q => by rw [hn1]; fin_cases q <;> rfl) hshape
    have hlen1 : nd1.nodes.length = nd.nodes.length := length_setNode _ _ _
    have hself1 : self < nd1.nodes.length := by omega
    obtain ⟨lvlG1, hextG1, hshG1, hcxG1, hcapG1, hovfG1⟩ :=
      shape_step meshB quadB qIdx d lvl' ih self inParent hx hy 0 nd1
        (nd1.node 0) lvlF hsh1 hself1 hlvl hcap
    set st1 := FNode.addNodesStep
      (fun a b c => FNode.addNodes meshB quadB qIdx lvl' a b c)
      meshB quadB self inParent hx hy (nd1, nd1.node 0) 0 with hst1
    set q1 : FNodeData := st1.1 with hq1
    set r1 : FNode := st1.2 with hr1
    have hpair1 : (q1, r1) = st1 := by rw [hq1, hr1]
    have hm1 : nd1.nodes.length ≤ q1.nodes.length := hcxG1.1
    have hself2 : self < q1.nodes.length := by omega
    have hlvl2 : lvlG1 self = lvl' + 1 := by
      rw [hextG1 self hself1]
      exact hlvl
    have hcap2 : (∑ k ∈ Finset.range (d + 1), 4 ^ k) ≤ q1.capacity := by
      rw [hcapG1]
      exact hcap
    obtain ⟨lvlG2, hextG2, hshG2, hcxG2, hcapG2, hovfG2⟩ :=
      shape_step meshB quadB qIdx d lvl' ih self inParent hx hy 1 q1 r1
        lvlG1 hshG1 hself2 hlvl2 hcap2
    set st2 := FNode.addNodesStep
      (fun a b c => FNode.addNodes meshB quadB qIdx lvl' a b c)
      meshB quadB self inParent hx hy (q1, r1) 1 with hst2
    set q2 : FNodeData := st2.1 with hq2
    set r2 : FNode := st2.2 with hr2
    have hpair2 : (q2, r2) = st2 := by rw [hq2, hr2]
    have hm2 : q1.nodes.length ≤ q2.nodes.length := hcxG2.1
    have hself3 : self < q2.nodes.length := by omega
    have hlvl3 : lvlG2 self = lvl' + 1 := by
      rw [hextG2 self hself2]
      exact hlvl2
    have hcap3 : (∑ k ∈ Finset.range (d + 1), 4 ^ k) ≤ q2.capacity := by
      rw [hcapG2]
      exact hcap2
    obtain ⟨lvlG3, hextG3, hshG3, hcxG3, hcapG3, hovfG3⟩ :=
      shape_step meshB quadB qIdx d lvl' ih self inParent hx hy 2 q2 r2
        lvlG2 hshG2 hself3 hlvl3 hcap3
    set st3 := FNode.addNodesStep
      (fun a b c => FNode.addNodes meshB quadB qIdx lvl' a b c)
      meshB quadB self inParent hx hy (q2, r2) 2 with hst3
    set q3 : FNodeData := st3.1 with hq3
    set r3 : FNode := st3.2 with hr3
    have hpair3 : (q3, r3) = st3 := by rw [hq3, hr3]
    have hm3 : q2.nodes.length ≤ q3.nodes.length := hcxG3.1
    have hself4 : self < q3.nodes.length := by omega
    have hlvl4 : lvlG3 self = lvl' + 1 := by
      rw [hextG3 self hself3]
      exact hlvl3
    have hcap4 : (∑ k ∈ Finset.range (d + 1), 4 ^ k) ≤ q3.capacity := by
      rw [hcapG3]
      exact hcap3
    obtain ⟨lvlG4, hextG4, hshG4, hcxG4, hcapG4, hovfG4⟩ :=
      shape_step meshB quadB qIdx d lvl' ih self inParent hx hy 3 q3 r3
        lvlG3 hshG3 hself4 hlvl4 hcap4
    have hunf : FNode.addNodes meshB quadB qIdx (lvl' + 1) nd self inParent =
        (FNode.addNodesStep
          (fun a b c => FNode.addNodes meshB quadB qIdx lvl' a b c)
          meshB quadB self inParent hx hy (q3, r3) 3).1 := by
      rw [hpair3, hst3, hpair2, hst2, hpair1, hst1]
      conv_lhs => rw [FNode.addNodes]
      simp only [List.foldl]
    rw [hunf]
    refine ⟨lvlG4, ?_, hshG4, ?_, ?_, ?_⟩
    · intro j hjl
      rw [hextG4 j (by omega), hextG3 j (by omega), hextG2 j (by omega),
        hextG1 j (by omega)]
    · exact childExt_trans _ _ _ (childExt_trans _ _ _ (childExt_trans _ _ _
        (childExt_trans _ _ _ hcx1 hcxG1) hcxG2) hcxG3) hcxG4
    · rw [hcapG4, hcapG3, hcapG2, hcapG1]
      rfl
    · rw [hovfG4, hovfG3, hovfG2, hovfG1]
      rfl

/-- Closed form of the quadtree node count: `3 * (1 + 4 + ... + 4^n) + 1 =
4^(n+1)`. -/
theorem three_mul_geom_sum (n : Nat) :
    3 * (∑ k ∈ Finset.range (n + 1), 4 ^ k) + 1 = 4 ^ (n + 1) := by
  induction n with
  | zero => simp
  | succ m ihm =>
    rw [Finset.sum_range_succ, Nat.mul_add, pow_succ]
    omega

/-- After `InitTree` the arena is a single childless root, the capacity holds
a full tree of the computed depth, and the overflow flag is clear. -/
theorem initTree_shape (inBounds : FBox2D) (tileSize : Rat) (ex ey : Int) :
    ArenaShape (FMeshQuadTree.initTree inBounds tileSize ex ey).nodeData
      (FMeshQuadTree.initTree inBounds tileSize ex ey).treeDepth
      (fun _ => (FMeshQuadTree.initTree inBounds tileSize ex ey).treeDepth) ∧
    (∑ k ∈ Finset.range
        ((FMeshQuadTree.initTree inBounds tileSize ex ey).treeDepth + 1),
      4 ^ k) ≤
      (FMeshQuadTree.initTree inBounds tileSize ex ey).nodeData.capacity ∧
    (FMeshQuadTree.initTree inBounds tileSize ex ey).nodeData.overflowed =
      false := by
  refine ⟨⟨?_, rfl, ?_, ?_, ?_⟩, ?_, rfl⟩
  · show (0 : Nat) < 1
    exact Nat.one_pos
  · intro i hi q hq
    have hi1 : i < 1 := hi
    have hi0 : i = 0 := by omega
    rw [hi0] at hq
    exact absurd (by fin_cases q <;> rfl) hq
  · intro i hi q hq
    have hi1 : i < 1 := hi
    have hi0 : i = 0 := by omega
    rw [hi0] at hq
    exact absurd (by fin_cases q <;> rfl) hq
  · intro j hj0 hjl
    have hj1 : j < 1 := hjl
    omega
  · have hd : (FMeshQuadTree.initTree inBounds tileSize ex ey).treeDepth =
        Nat.clog 2 ((max (ex * 2) (ey * 2)).toNat) := by
      show Nat.log 2 (roundUpToPowerOfTwo ((max (ex * 2) (ey * 2)).toNat)) = _
      unfold roundUpToPowerOfTwo
      exact Nat.log_pow (by norm_num) _
    have hcapv : (FMeshQuadTree.initTree inBounds tileSize ex ey).nodeData.capacity
        = 4 * (2 ^ Nat.clog 2 ((max (ex * 2) (ey * 2)).toNat)) ^ 2 / 3 := rfl
    rw [hd, hcapv]
    have hpow : 4 * (2 ^ Nat.clog 2 ((max (ex * 2) (ey * 2)).toNat)) ^ 2 =
        4 ^ (Nat.clog 2 ((max (ex * 2) (ey * 2)).toNat) + 1) := by
      rw [show ((4 : Nat)) = 2 ^ 2 from rfl, ← pow_mul, ← pow_mul, ← pow_add]
      have harith : 2 + Nat.clog 2 ((max (ex * 2) (ey * 2)).toNat) * 2 =
          2 * (Nat.clog 2 ((max (ex * 2) (ey * 2)).toNat) + 1) := by ring
      rw [harith]
    rw [hpow]
    have hg := three_mul_geom_sum (Nat.clog 2 ((max (ex * 2) (ey * 2)).toNat))
    omega

/-- Arena shape, capacity headroom and a clear overflow flag survive any
sequence of tile-region insertions. -/
theorem applyTileInsertions_shape :
    ∀ (ins : List (FBox × Nat)) (t : FMeshQuadTree) (lvlF : Nat → Nat),
      ArenaShape t.nodeData t.treeDepth lvlF →
      (∑ k ∈ Finset.range (t.treeDepth + 1), 4 ^ k) ≤ t.nodeData.capacity →
      t.nodeData.overflowed = false →
      ∃ lvlF' : Nat → Nat,
        ArenaShape (t.applyTileInsertions ins).nodeData
          (t.applyTileInsertions ins).treeDepth lvlF' ∧
        (∑ k ∈ Finset.range ((t.applyTileInsertions ins).treeDepth + 1),
          4 ^ k) ≤ (t.applyTileInsertions ins).nodeData.capacity ∧
        (t.applyTileInsertions ins).nodeData.overflowed = false := by
  intro ins
  induction ins with
  | nil => intro t lvlF h1 h2 h3; exact ⟨lvlF, h1, h2, h3⟩
  | cons e rest ihr =>
    intro t lvlF h1 h2 h3
    obtain ⟨lvlF2, hext2, hsh2, hcx2, hcap2, hovf2⟩ :=
      addNodes_shape
        ⟨⟨t.tileRegion.lo.x, t.tileRegion.lo.y, 0⟩,
         ⟨t.tileRegion.hi.x, t.tileRegion.hi.y, 0⟩, true⟩ e.1 e.2 t.treeDepth
        t.treeDepth t.nodeData 0 0 lvlF h1 h1.len_pos h1.root_level h2
    have hstep : t.applyTileInsertions (e :: rest) =
        (t.addQuadMeshTilesInsideBounds e.1 e.2).applyTileInsertions rest := rfl
    rw [hstep]
    refine ihr (t.addQuadMeshTilesInsideBounds e.1 e.2) lvlF2 hsh2 ?_ ?_
    · show (∑ k ∈ Finset.range (t.treeDepth + 1), 4 ^ k) ≤
        (FNode.addNodes
          ⟨⟨t.tileRegion.lo.x, t.tileRegion.lo.y, 0⟩,
           ⟨t.tileRegion.hi.x, t.tileRegion.hi.y, 0⟩, true⟩ e.1 e.2 t.treeDepth
          t.nodeData 0 0).capacity
      rw [hcap2]
      exact h2
    · show (FNode.addNodes
          ⟨⟨t.tileRegion.lo.x, t.tileRegion.lo.y, 0⟩,
           ⟨t.tileRegion.hi.x, t.tileRegion.hi.y, 0⟩, true⟩ e.1 e.2 t.treeDepth
          t.nodeData 0 0).overflowed = false
      rw [hovf2]
      exact h3

/-- C9: after `InitTree` and any sequence of region insertions, the arena
holds at most the pre-sized capacity (the full-tree node count for the
power-of-two root dimension), and the overflow condition of `AddNodes`
(`Nodes.Num() >= Capacity` at an `Emplace`) never fires. -/
theorem insertions_never_overflow (inBounds : FBox2D) (tileSize : Rat)
    (ex ey : Int) (ins : List (FBox × Nat)) :
    ((FMeshQuadTree.initTree inBounds tileSize ex ey).applyTileInsertions
        ins).nodeData.nodes.length ≤
      ((FMeshQuadTree.initTree inBounds tileSize ex ey).applyTileInsertions
        ins).nodeData.capacity ∧
    ((FMeshQuadTree.initTree inBounds tileSize ex ey).applyTileInsertions
        ins).nodeData.overflowed = false := by
  obtain ⟨hsh0, hcap0, hovf0⟩ := initTree_shape inBounds tileSize ex ey
  obtain ⟨lvlF', hsh', hcap', hovf'⟩ :=
    applyTileInsertions_shape ins (FMeshQuadTree.initTree inBounds tileSize ex ey)
      _ hsh0 hcap0 hovf0
  exact ⟨le_trans (arenaShape_length_le _ _ _ hsh') hcap', hovf'⟩

/-- `take` keeps the front slot. -/
theorem getD_take_zero (l : List FNode) (n : Nat) (hn : 0 < n) :
    (l.take n).getD 0 FNode.defaultNode = l.getD 0 FNode.defaultNode := by
  simp [List.getD_eq_getElem?_getD, List.getElem?_take, hn]

/-- Arenas with the same render-data table read the same records. -/
theorem rd_congr (nd nd2 : FNodeData)
    (h : nd.quadMeshRenderData = nd2.quadMeshRenderData) :
    ∀ x, nd.rd x = nd2.rd x := by
  intro x
  simp only [FNodeData.rd, h]

/-- On a tree whose root carries both summary flags, `QueryTileBaseHeight`
answers immediately with the root's render-data base height and found=true
(lines 224-235, 455-489). -/
theorem queryTileBaseHeight_at_flagged_root (t : FMeshQuadTree)
    (hne : 0 < t.nodeData.nodes.length)
    (hc : (t.nodeData.node 0).hasCompleteSubtree = true)
    (hs : (t.nodeData.node 0).isSubtreeSameQuadMesh = true) (p : FVector2D) :
    t.queryTileBaseHeightAtLocation p =
      (true,
       (t.nodeData.rd (t.nodeData.node 0).quadMeshIndex).surfaceBaseHeight) := by
  unfold FMeshQuadTree.queryTileBaseHeightAtLocation
  rw [if_pos (show 0 < t.getNodeCount from hne)]
  obtain ⟨m, hm⟩ : ∃ m, t.nodeData.nodes.length = m + 1 :=
    ⟨t.nodeData.nodes.length - 1, by omega⟩
  rw [hm]
  rw [FNode.queryBaseHeightAtLocation]
  simp only [hc, hs, Bool.and_true, if_true]


/-- C4: the frozen claim fails on both query functions (see
`pruning_changes_query_results_counterexample`).  `QueryBounds` descends
children without consulting the completeness flags, so after a covering
insertion the pruned tree answers with the root's coarsened box where the
unpruned tree answers with a leaf box.  `QueryHeight` is not preserved in
general either: the line-107 pruning branch removes a material-less complete
identity-uniform subtree and zeroes the parent's child slot, flipping the
found flag from true to false at points of that quadrant.  Amended claim (the
part that survives): after a single insertion whose region covers the root
tile, the tree locked with `pruneRedundant=true` and the tree locked with
`pruneRedundant=false` return the same `QueryHeight` result at every sample
point - found=true with the inserted render-data's base height. -/
theorem pruning_preserves_queryHeight_after_covering_insertion
    (t : FMeshQuadTree) (region : FBox) (qIdx : Nat) (p : FVector2D)
    (hlen : t.nodeData.nodes.length = 1)
    (hc0 : (t.nodeData.node 0).children0 = 0)
    (hc1 : (t.nodeData.node 0).children1 = 0)
    (hc2 : (t.nodeData.node 0).children2 = 0)
    (hc3 : (t.nodeData.node 0).children3 = 0)
    (hroot : (t.nodeData.node 0).parentIndex = INVALID_PARENT)
    (hq : (t.nodeData.node 0).bounds.xyContainedIn region)
    (hme : (t.nodeData.node 0).bounds.xyContainedIn
      ⟨⟨t.tileRegion.lo.x, t.tileRegion.lo.y, 0⟩,
       ⟨t.tileRegion.hi.x, t.tileRegion.hi.y, 0⟩, true⟩)
    (hlx : (t.nodeData.node 0).bounds.lo.x ≤ (t.nodeData.node 0).bounds.hi.x)
    (hly : (t.nodeData.node 0).bounds.lo.y ≤ (t.nodeData.node 0).bounds.hi.y) :
    ((t.addQuadMeshTilesInsideBounds region qIdx).unlock
        true).queryTileBaseHeightAtLocation p =
      ((t.addQuadMeshTilesInsideBounds region qIdx).unlock
        false).queryTileBaseHeightAtLocation p ∧
    ((t.addQuadMeshTilesInsideBounds region qIdx).unlock
        false).queryTileBaseHeightAtLocation p =
      (true, (t.nodeData.rd qIdx).surfaceBaseHeight) := by
  have hspec := addNodes_covered
    ⟨⟨t.tileRegion.lo.x, t.tileRegion.lo.y, 0⟩,
     ⟨t.tileRegion.hi.x, t.tileRegion.hi.y, 0⟩, true⟩ region qIdx t.treeDepth
    t.nodeData 0 (by omega) hc0 hc1 hc2 hc3 hq hme hlx hly hroot
  set nd' : FNodeData := FNode.addNodes
    ⟨⟨t.tileRegion.lo.x, t.tileRegion.lo.y, 0⟩,
     ⟨t.tileRegion.hi.x, t.tileRegion.hi.y, 0⟩, true⟩ region qIdx t.treeDepth
    t.nodeData 0 0 with hnd'
  obtain ⟨hmono, hrdeq, -, hcomp, hsame, hqidx, -, -, -, -, -, -, hpf⟩ := hspec
  have h1 : 1 ≤ nd'.nodes.length := hlen ▸ hmono
  have hfalse_nd : ((t.addQuadMeshTilesInsideBounds region qIdx).unlock
      false).nodeData = nd' := rfl
  have hunp := queryTileBaseHeight_at_flagged_root
    ((t.addQuadMeshTilesInsideBounds region qIdx).unlock false)
    (by rw [hfalse_nd]; omega) (by rw [hfalse_nd]; exact hcomp)
    (by rw [hfalse_nd]; exact hsame) p
  rw [hfalse_nd, hqidx, rd_congr nd' t.nodeData hrdeq qIdx] at hunp
  have hinvraw : ∀ j, 1 ≤ j → j < nd'.nodes.length →
      (nd'.nodes.getD (nd'.nodes.getD j FNode.defaultNode).parentIndex
        FNode.defaultNode).hasCompleteSubtree = true ∧
      (nd'.nodes.getD (nd'.nodes.getD j FNode.defaultNode).parentIndex
        FNode.defaultNode).isSubtreeSameQuadMesh = true := by
    intro j hj1 hj2
    exact hpf j (by omega) hj2
  have hall := pruneLoop_all (nd'.nodes.length - 1) nd'.nodes (by omega) hinvraw
  set res := pruneLoop (nd'.nodes.length - 1) nd'.nodes (nd'.nodes.length - 1)
    with hres
  have hnode0 : (((t.addQuadMeshTilesInsideBounds region qIdx).unlock
      true).nodeData).node 0 = res.1.getD 0 FNode.defaultNode := by
    show (res.1.take (res.2 + 1)).getD 0 FNode.defaultNode = _
    rw [hall.1]
    exact getD_take_zero res.1 1 Nat.one_pos
  have hflags0 := hall.2.2 0
  have hcompP : ((((t.addQuadMeshTilesInsideBounds region qIdx).unlock
      true)).nodeData.node 0).hasCompleteSubtree = true := by
    rw [hnode0, hflags0.1]
    exact hcomp
  have hsameP : ((((t.addQuadMeshTilesInsideBounds region qIdx).unlock
      true)).nodeData.node 0).isSubtreeSameQuadMesh = true := by
    rw [hnode0, hflags0.2.1]
    exact hsame
  have hqidxP : ((((t.addQuadMeshTilesInsideBounds region qIdx).unlock
      true)).nodeData.node 0).quadMeshIndex = qIdx := by
    rw [hnode0, hflags0.2.2]
    exact hqidx
  have hlenP : 0 < (((t.addQuadMeshTilesInsideBounds region qIdx).unlock
      true)).nodeData.nodes.length := by
    show 0 < (res.1.take (res.2 + 1)).length
    rw [List.length_take, hall.1, hall.2.1]
    omega
  have htrp := queryTileBaseHeight_at_flagged_root
    ((t.addQuadMeshTilesInsideBounds region qIdx).unlock true) hlenP hcompP
    hsameP p
  rw [hqidxP] at htrp
  have hrdtab : (((t.addQuadMeshTilesInsideBounds region qIdx).unlock
      true)).nodeData.quadMeshRenderData = t.nodeData.quadMeshRenderData := by
    show nd'.quadMeshRenderData = _
    exact hrdeq
  rw [rd_congr _ _ hrdtab qIdx] at htrp
  exact ⟨htrp.trans hunp.symm, hunp⟩

/-- Witness for `pruning_preserves_queryHeight_after_covering_insertion`:
the 2x2 tree with a covering insertion of render-data index 1, sampled at
`(8,8)`. -/
theorem pruning_preserves_queryHeight_witness :
    (tinyTreeRD.nodeData.nodes.length = 1 ∧
     (tinyTreeRD.nodeData.node 0).bounds.xyContainedIn
       ⟨⟨0, 0, 0⟩, ⟨64, 64, 5⟩, true⟩) ∧
    ((tinyTreeRD.addQuadMeshTilesInsideBounds ⟨⟨0, 0, 0⟩, ⟨64, 64, 5⟩, true⟩
        1).unlock true).queryTileBaseHeightAtLocation ⟨8, 8⟩ =
      ((tinyTreeRD.addQuadMeshTilesInsideBounds ⟨⟨0, 0, 0⟩, ⟨64, 64, 5⟩, true⟩
        1).unlock false).queryTileBaseHeightAtLocation ⟨8, 8⟩ ∧
    ((tinyTreeRD.addQuadMeshTilesInsideBounds ⟨⟨0, 0, 0⟩, ⟨64, 64, 5⟩, true⟩
        1).unlock false).queryTileBaseHeightAtLocation ⟨8, 8⟩ =
      (true, (tinyTreeRD.nodeData.rd 1).surfaceBaseHeight) :=
  ⟨⟨by with_unfolding_all decide,
    by refine ⟨?_, ?_, ?_, ?_⟩ <;> with_unfolding_all decide⟩,
   (pruning_preserves_queryHeight_after_covering_insertion tinyTreeRD
     ⟨⟨0, 0, 0⟩, ⟨64, 64, 5⟩, true⟩ 1 ⟨8, 8⟩ (by with_unfolding_all decide)
     (by with_unfolding_all decide) (by with_unfolding_all decide)
     (by with_unfolding_all decide) (by with_unfolding_all decide)
     (by with_unfolding_all decide)
     (by refine ⟨?_, ?_, ?_, ?_⟩ <;> with_unfolding_all decide)
     (by refine ⟨?_, ?_, ?_, ?_⟩ <;> with_unfolding_all decide)
     (by with_unfolding_all decide) (by with_unfolding_all decide)).1,
   (pruning_preserves_queryHeight_after_covering_insertion tinyTreeRD
     ⟨⟨0, 0, 0⟩, ⟨64, 64, 5⟩, true⟩ 1 ⟨8, 8⟩ (by with_unfolding_all decide)
     (by with_unfolding_all decide) (by with_unfolding_all decide)
     (by with_unfolding_all decide) (by with_unfolding_all decide)
     (by with_unfolding_all decide)
     (by refine ⟨?_, ?_, ?_, ?_⟩ <;> with_unfolding_all decide)
     (by refine ⟨?_, ?_, ?_, ?_⟩ <;> with_unfolding_all decide)
     (by with_unfolding_all decide) (by with_unfolding_all decide)).2⟩

/-- C4 counterexample, refuting both halves of the claim.  `QueryBounds`: on
the 2x2 tree with one covering insertion, the query at `(8,8)` reports
found=true on both trees but returns different boxes - the pruned tree's root
box is coarser than the unpruned tree's leaf box.  `QueryHeight`: inserting a
quarter region under the material-less render-data record 0 triggers the
line-107 pruning branch (no material, complete, identity-uniform subtree), so
the pruned tree reports found=false at `(8,8)` where the unpruned tree
reports found=true. -/
theorem pruning_changes_query_results_counterexample :
    (((((tinyTreeRD.addQuadMeshTilesInsideBounds ⟨⟨0, 0, 0⟩, ⟨64, 64, 5⟩, true⟩
        1).unlock true).queryTileBoundsAtLocation ⟨8, 8⟩).1 = true ∧
      (((tinyTreeRD.addQuadMeshTilesInsideBounds ⟨⟨0, 0, 0⟩, ⟨64, 64, 5⟩, true⟩
        1).unlock false).queryTileBoundsAtLocation ⟨8, 8⟩).1 = true) ∧
     ((tinyTreeRD.addQuadMeshTilesInsideBounds ⟨⟨0, 0, 0⟩, ⟨64, 64, 5⟩, true⟩
        1).unlock true).queryTileBoundsAtLocation ⟨8, 8⟩ ≠
       ((tinyTreeRD.addQuadMeshTilesInsideBounds ⟨⟨0, 0, 0⟩, ⟨64, 64, 5⟩, true⟩
        1).unlock false).queryTileBoundsAtLocation ⟨8, 8⟩) ∧
    ((tinyTree0.nodeData.rd 0).material = none ∧
     (((tinyTree0.addQuadMesh [] ⟨⟨0, 0, 0⟩, ⟨16, 16, 5⟩, true⟩
        0).unlock true).queryTileBaseHeightAtLocation ⟨8, 8⟩).1 = false ∧
     (((tinyTree0.addQuadMesh [] ⟨⟨0, 0, 0⟩, ⟨16, 16, 5⟩, true⟩
        0).unlock false).queryTileBaseHeightAtLocation ⟨8, 8⟩).1 = true ∧
     ((tinyTree0.addQuadMesh [] ⟨⟨0, 0, 0⟩, ⟨16, 16, 5⟩, true⟩
        0).unlock true).queryTileBaseHeightAtLocation ⟨8, 8⟩ ≠
       ((tinyTree0.addQuadMesh [] ⟨⟨0, 0, 0⟩, ⟨16, 16, 5⟩, true⟩
        0).unlock false).queryTileBaseHeightAtLocation ⟨8, 8⟩) := by
  refine ⟨⟨⟨?_, ?_⟩, ?_⟩, ?_, ?_, ?_, ?_⟩ <;> with_unfolding_all decide
